import Mathlib

/-!
# Cost-guarded query execution: `safe-query.js`, `run-query.js` and `create-view.js`

A shallow embedding of the three scripts that drive the external `bq` tool.

* Strings are lists of Unicode scalar values; every character the scripts inspect
  (digits, commas, white space, ASCII letters) is a single code unit in JavaScript as well.
* A JavaScript number that holds a byte count is `JSNum`: `NaN`, an integer-valued number
  or an infinity.  `parseInt` rounds the integer it reads to the nearest binary64 number
  (exact up to `2^53`, `Infinity` beyond the binary64 range) and `toString` prints the
  shortest decimal that reads back, in exponent notation from `10^21` on.
* The arithmetic of `calculateCost` and `formatBytes` is IEEE-754 binary64 arithmetic on `Double`, a
  significand and a binary exponent, with round-to-nearest-even after every operation
  (the exponent range is not bounded: the values involved are far from overflow and underflow).
* A run of a script is the list of its effects (`Event`) together with the exit code of the
  process.  The runtime (file system, subprocesses, `JSON.parse`, the operator at the
  terminal) is an explicit environment, so every theorem quantifies over its behaviour.
-/

set_option autoImplicit false

namespace BigQueryToolkit

/-! ## Characters and digits -/

/-- ECMAScript `WhiteSpace` and `LineTerminator` code points: what `\s` matches and what
`parseInt` and `String.prototype.trim` strip. -/
def isWhiteSpace (c : Char) : Bool :=
  let n := c.toNat
  n == 0x09 || n == 0x0A || n == 0x0B || n == 0x0C || n == 0x0D || n == 0x20 || n == 0xA0 ||
  n == 0x1680 || (0x2000 ≤ n && n ≤ 0x200A) || n == 0x2028 || n == 0x2029 || n == 0x202F ||
  n == 0x205F || n == 0x3000 || n == 0xFEFF

/-- Regular-expression class `\d`: the ASCII digits. -/
def isDigit (c : Char) : Bool := 48 ≤ c.toNat && c.toNat ≤ 57

/-- Value of a character as a digit in radix 10 or 16 (`parseInt`), if it is one. -/
def digitVal (radix : Nat) (c : Char) : Option Nat :=
  let n := c.toNat
  if 48 ≤ n ∧ n ≤ 57 then some (n - 48)
  else if radix = 16 ∧ 97 ≤ n ∧ n ≤ 102 then some (n - 87)
  else if radix = 16 ∧ 65 ≤ n ∧ n ≤ 70 then some (n - 55)
  else none

/-- The character of a decimal digit `d < 10`. -/
def digitChar (d : Nat) : Char := Char.ofNat (48 + d)

/-- Decimal digits of `n`, most significant first; `fuel` bounds the number of digits. -/
def decimalDigits : Nat → Nat → List Char
  | 0, _ => []
  | fuel + 1, n =>
    if n < 10 then [digitChar n] else decimalDigits fuel (n / 10) ++ [digitChar (n % 10)]

/-- Decimal representation of a natural number (`"0"` for zero). -/
def natToDecimal (n : Nat) : List Char := decimalDigits (n + 1) n

/-- Value of a list of digit characters read in the given radix; stops contributing nothing
for characters that are not digits (callers pass digit strings only). -/
def digitsValue (radix : Nat) (cs : List Char) : Nat :=
  cs.foldl (fun acc c => acc * radix + (digitVal radix c).getD 0) 0

/-! ## Numbers -/

/-- Position of the highest set bit: `floor (log2 n)` for `n > 0`; `fuel` bounds the search. -/
def log2Fuel : Nat → Nat → Nat
  | 0, _ => 0
  | fuel + 1, n => if n < 2 then 0 else log2Fuel fuel (n / 2) + 1

/-- Integer `s` with `2^s ≤ num / den < 2^(s+1)`, for positive `num` and `den`. -/
def floorLog2Ratio (num den : Nat) : Int :=
  let t : Int := (log2Fuel num num : Int) - (log2Fuel den den : Int)
  if den * 2 ^ t.toNat ≤ num * 2 ^ (-t).toNat then t else t - 1

/-- Nearest integer to `num / den`, ties to the even one. -/
def roundNearestEven (num den : Nat) : Nat :=
  let q := num / den
  let r := num % den
  if den < 2 * r ∨ (2 * r = den ∧ q % 2 = 1) then q + 1 else q

/-- The binary64 rounding of the positive real `num / den * 2^e`: the nearest value with a
53-bit significand, ties to even, as significand and exponent. -/
def roundToDouble (num den : Nat) (e : Int) : Nat × Int :=
  if num = 0 then (0, 0)
  else
    let k : Int := 52 - floorLog2Ratio num den
    (roundNearestEven (num * 2 ^ k.toNat) (den * 2 ^ (-k).toNat), e - k)

/-- The binary64 number nearest to the natural number `n` (ties to even), as an integer;
the exponent range is not bounded here. -/
def toDouble (n : Nat) : Nat :=
  let r := roundToDouble n 1 0
  if 0 ≤ r.2 then r.1 * 2 ^ r.2.toNat else n

/-- A JavaScript number holding a count: `NaN`, an integer-valued number, or an infinity
(`neg` tells `-Infinity`).  The two zeros are not told apart: the scripts treat them alike. -/
inductive JSNum where
  | nan
  | int (z : Int)
  | inf (neg : Bool)
  deriving DecidableEq, Repr

/-- The bound `2^1024` of the finite binary64 numbers, written as a product of four powers. -/
def overflowBound : Nat := 2 ^ 256 * 2 ^ 256 * 2 ^ 256 * 2 ^ 256

/-- The Number value of a natural number: the nearest binary64 number, `Infinity` when that
is `2^1024` or more. -/
def JSNum.ofNat (v : Nat) : JSNum :=
  if toDouble v < overflowBound then .int (toDouble v) else .inf false

/-- Unary minus. -/
def JSNum.negate : JSNum → JSNum
  | .nan => .nan
  | .int z => .int (-z)
  | .inf neg => .inf (!neg)

/-- The decimal integer with `k` or more significant digits that `Number::toString` picks
for the number `x` of `d` decimal digits: the multiple of `10^(d-k)` below or above `x`
whose Number value is `x`, the closer one when both are (the even one on a tie); `k` grows
until one is found. -/
def shortestDecimalFrom (x d : Nat) : Nat → Nat → Nat
  | 0, _ => x
  | fuel + 1, k =>
    let p := 10 ^ (d - k)
    let lo := x / p * p
    let hi := lo + p
    let okLo := toDouble lo == x
    let okHi := toDouble hi == x
    if okLo && okHi then
      if x - lo < hi - x then lo
      else if hi - x < x - lo then hi
      else if x / p % 2 == 0 then lo else hi
    else if okLo then lo
    else if okHi then hi
    else shortestDecimalFrom x d fuel (k + 1)

/-- The decimal integer with the fewest significant digits whose Number value is `x`
(seventeen digits always suffice). -/
def shortestDecimal (x : Nat) : Nat :=
  shortestDecimalFrom x (natToDecimal x).length 17 1

/-- Exponent notation of `Number::toString` for an integer of 22 digits or more: the
significant digits with a point after the first, then `e+` and the decimal exponent. -/
def exponentForm (c : Nat) : List Char :=
  let ds := natToDecimal c
  let sig := (ds.reverse.dropWhile fun ch => ch == '0').reverse
  let e := natToDecimal (ds.length - 1)
  match sig with
  | [] => ds
  | [a] => a :: 'e' :: '+' :: e
  | a :: rest => a :: '.' :: rest ++ 'e' :: '+' :: e

/-- Models `Number::toString` on a non-negative integer-valued number: its decimal digits up to
`2^53`; above, the shortest decimal that reads back as the number, written in full below
`10^21` and in exponent notation from `10^21` on. -/
def natToStr (n : Nat) : List Char :=
  if n ≤ 2 ^ 53 then natToDecimal n
  else
    let c := shortestDecimal n
    if c < 10 ^ 21 then natToDecimal c else exponentForm c

/-- Number to string conversion (`toString`, template literals). -/
def JSNum.toStr : JSNum → String
  | .nan => "NaN"
  | .int z => String.mk ((if z < 0 then ['-'] else []) ++ natToStr z.natAbs)
  | .inf neg => if neg then "-Infinity" else "Infinity"

/-- Truthiness of a number: `NaN` and zero are falsy. -/
def JSNum.truthy : JSNum → Bool
  | .nan => false
  | .int z => z != 0
  | .inf _ => true

/-- The relational operator `a > b` on numbers: false as soon as one side is `NaN`. -/
def JSNum.gt : JSNum → JSNum → Bool
  | .int a, .int b => decide (b < a)
  | .inf false, .int _ => true
  | .inf false, .inf true => true
  | .int _, .inf true => true
  | _, _ => false

/-- Whether the digits of `parseInt` start with the prefix `0x` or `0X`. -/
def hasHexPrefix : List Char → Bool
  | '0' :: x :: _ => x == 'x' || x == 'X'
  | _ => false

/-- Global `parseInt(string)` with no radix argument: leading white space is skipped, an
optional sign is read, a `0x` or `0X` prefix selects radix 16, and the longest run of digits
is converted to the Number value of the integer it denotes; no digit at all gives `NaN`. -/
def parseInt (s : String) : JSNum :=
  let t := s.toList.dropWhile isWhiteSpace
  let neg := t.head? == some '-'
  let t := if t.head? == some '-' || t.head? == some '+' then t.tail else t
  let hex := hasHexPrefix t
  let radix := if hex then 16 else 10
  let t := if hex then t.drop 2 else t
  let z := t.takeWhile (fun c => (digitVal radix c).isSome)
  if z.isEmpty then .nan
  else if neg then (JSNum.ofNat (digitsValue radix z)).negate
  else JSNum.ofNat (digitsValue radix z)

/-- A finite binary64 value `(-1)^neg * m * 2^e`. -/
structure Double where
  neg : Bool
  m : Nat
  e : Int
  deriving DecidableEq, Repr

/-- An integer as a binary64 value (exact for magnitudes up to `2^53`). -/
def Double.ofInt (z : Int) : Double := ⟨decide (z < 0), z.natAbs, 0⟩

/-- IEEE division `a / b` for a non-zero divisor. -/
def Double.div (a b : Double) : Double :=
  let r := roundToDouble a.m b.m (a.e - b.e)
  ⟨a.neg != b.neg, r.1, r.2⟩

/-- IEEE multiplication `a * b`. -/
def Double.mul (a b : Double) : Double :=
  let r := roundToDouble (a.m * b.m) 1 (a.e + b.e)
  ⟨a.neg != b.neg, r.1, r.2⟩

/-- The integer `n` for which `n / 10^f - |x|` is as close to zero as possible, the larger
one when there are two (step of `Number.prototype.toFixed`). -/
def Double.scaledRound (x : Double) (f : Nat) : Nat :=
  if 0 ≤ x.e then x.m * 2 ^ x.e.toNat * 10 ^ f
  else (2 * (x.m * 10 ^ f) + 2 ^ (-x.e).toNat) / (2 * 2 ^ (-x.e).toNat)

/-- Models `Number.prototype.toFixed(f)` for a finite value below `10^21` and `f > 0`: the digits of
the scaled rounding, padded with zeros to `f + 1` digits, with a point before the last `f`. -/
def Double.toFixed (x : Double) (f : Nat) : String :=
  let s := if x.neg ∧ x.m ≠ 0 then ['-'] else []
  let m := natToDecimal (x.scaledRound f)
  let m := if m.length ≤ f then List.replicate (f + 1 - m.length) '0' ++ m else m
  String.mk (s ++ m.take (m.length - f) ++ ['.'] ++ m.drop (m.length - f))

/-! ## `safe-query.js`: display helpers -/

/-- Models `calculateCost(bytes)`: `(bytes / TB * costPerTB).toFixed(4)` with `TB = 1099511627776`
and `costPerTB = 5`; `NaN` and the infinities propagate and `toFixed` prints them by name. -/
def calculateCost : JSNum → String
  | .nan => "NaN"
  | .inf neg => if neg then "-Infinity" else "Infinity"
  | .int bytes =>
    let costPerTB := Double.ofInt 5
    let TB := Double.ofInt 1099511627776
    (((Double.ofInt bytes).div TB).mul costPerTB).toFixed 4

/-- Decimal notation of `n / 10^4` with exactly four decimal places: the integer part, a
point, and the four digits of `n mod 10^4`. -/
def fourPlaces (n : Nat) : String :=
  String.mk (natToDecimal (n / 10000) ++
    ['.', digitChar (n / 1000 % 10), digitChar (n / 100 % 10), digitChar (n / 10 % 10),
      digitChar (n % 10)])

/-! ## Regular expressions -/

/-- Abstract syntax of the regular expressions the scripts use (no alternation needed). -/
inductive Regex where
  | chr (c : Char)
  | cls (p : Char → Bool)
  | seq (a b : Regex)
  | star (a : Regex)

/-- Quantifier `+`. -/
def Regex.plus (a : Regex) : Regex := .seq a (.star a)

/-- A literal string. -/
def Regex.lit : List Char → Regex
  | [] => .star (.cls fun _ => false)
  | [c] => .chr c
  | c :: cs => .seq (.chr c) (Regex.lit cs)

/-- Greedy iteration of a matcher: one more round first (an empty round is rejected, as in
ECMAScript's `RepeatMatcher`), then the continuation with no further round. -/
def starLoop (step : List Char → List (List Char)) : Nat → List Char → List (List Char)
  | 0, s => [s]
  | fuel + 1, s =>
    ((step s).filter fun r => decide (r.length < s.length)).flatMap (starLoop step fuel) ++ [s]

/-- Backtracking matcher: every way `re` matches a prefix of `s`, as the list of the
remaining inputs in the order in which backtracking tries them. -/
def Regex.run : Regex → List Char → List (List Char)
  | .chr c, s => match s with
    | x :: xs => if x = c then [xs] else []
    | [] => []
  | .cls p, s => match s with
    | x :: xs => if p x then [xs] else []
    | [] => []
  | .seq a b, s => (a.run s).flatMap b.run
  | .star a, s => starLoop a.run s.length s

/-- A pattern `(group)rest` anchored at the start of `s`: the text captured by the group in
the first way, in backtracking order, for which the rest of the pattern matches. -/
def matchAt (group rest : Regex) (s : List Char) : Option (List Char) :=
  ((group.run s).find? fun r => !(rest.run r).isEmpty).map fun r => s.take (s.length - r.length)

/-- Models `String.prototype.match` for a non-global pattern `(group)rest`: the capture of the match
at the leftmost position that has one. -/
def regexMatch (group rest : Regex) : List Char → Option (List Char)
  | [] => matchAt group rest []
  | c :: cs => (matchAt group rest (c :: cs)).orElse fun _ => regexMatch group rest cs

/-- The group of `/(\d+(?:,\d{3})*)\s+bytes\s+processed/`: `\d+(?:,\d{3})*`. -/
def bytesGroup : Regex :=
  .seq (Regex.plus (.cls isDigit))
    (.star (.seq (.chr ',') (.seq (.cls isDigit) (.seq (.cls isDigit) (.cls isDigit)))))

/-- The rest of `/(\d+(?:,\d{3})*)\s+bytes\s+processed/`: `\s+bytes\s+processed`. -/
def bytesRest : Regex :=
  .seq (Regex.plus (.cls isWhiteSpace)) (.seq (Regex.lit "bytes".toList)
    (.seq (Regex.plus (.cls isWhiteSpace)) (Regex.lit "processed".toList)))

/-! ## JSON values -/

/-- A value returned by `JSON.parse`.  Numbers are integers (byte counts); an object is the
list of its members. -/
inductive Json where
  | null
  | bool (b : Bool)
  | num (z : Int)
  | str (s : String)
  | arr (xs : List Json)
  | obj (members : List (String × Json))

/-- Property read `v[key]` for a key that is not a built-in property: the member of an
object, `undefined` (`none`) for a missing member and for strings, numbers, booleans and
arrays.  Reading a property of `null` throws and is handled by the caller. -/
def Json.getProp (key : String) : Json → Option Json
  | .obj members => (members.find? fun kv => kv.1 == key).map Prod.snd
  | _ => none

/-- Truthiness; `none` is `undefined`. -/
def Json.truthy : Option Json → Bool
  | none => false
  | some .null => false
  | some (.bool b) => b
  | some (.num z) => z != 0
  | some (.str s) => s != ""
  | some (.arr _) => true
  | some (.obj _) => true

mutual
/-- String conversion `ToString(v)`: arrays join the conversions of their elements with
commas, objects give `[object Object]`. -/
def Json.toStr : Json → String
  | .null => "null"
  | .bool b => if b then "true" else "false"
  | .num z => (JSNum.int z).toStr
  | .str s => s
  | .arr xs => Json.joinStr xs
  | .obj _ => "[object Object]"
/-- Models `Array.prototype.join(",")`: `null` elements contribute the empty string. -/
def Json.joinStr : List Json → String
  | [] => ""
  | [x] => Json.elemStr x
  | x :: y :: rest => Json.elemStr x ++ "," ++ Json.joinStr (y :: rest)
/-- Conversion of one array element inside `join`. -/
def Json.elemStr : Json → String
  | .null => ""
  | .bool b => if b then "true" else "false"
  | .num z => (JSNum.int z).toStr
  | .str s => s
  | .arr xs => Json.joinStr xs
  | .obj _ => "[object Object]"
end

/-- Models `parseInt(result.totalBytesProcessed || 0)` for a parsed `result` that is not `null`. -/
def totalBytesProcessed (result : Json) : JSNum :=
  let v := result.getProp "totalBytesProcessed"
  if Json.truthy v then parseInt ((v.getD (.num 0)).toStr) else parseInt (JSNum.int 0).toStr

/-! ## Runtime environment and effects -/

/-- The error `execSync` throws when the subprocess exits non-zero: exit status, the captured
streams and the message of the error object. -/
structure ExecError where
  status : Int
  stdout : String
  stderr : String
  message : String

/-- Everything a run obtains from outside the script. -/
structure Env where
  /-- Models `fs.existsSync(path)` -/
  existsSync : String → Bool
  /-- Models `fs.readFileSync(path, 'utf8')`: the content, or the message of the error thrown -/
  readFileSync : String → Except String String
  /-- Models `fs.writeFileSync(path, data)`: whether it returns or throws (with that message) -/
  writeFileSync : String → String → Except String Unit
  /-- Models `fs.mkdirSync(path)` with `recursive: true` -/
  mkdirSync : String → Except String Unit
  /-- Models `fs.statSync(path).size` -/
  statSize : String → Except String Nat
  /-- Models `execSync(command)` with the given `input`: captured stdout on exit status 0, the error otherwise -/
  execSync : String → Option String → Except ExecError String
  /-- Models `JSON.parse(text)`; `none` when it throws -/
  jsonParse : String → Option Json
  /-- the line the operator enters at the confirmation prompt -/
  answer : String
  /-- the exit code with which the spawned child closes -/
  closeCode : Int
  /-- Models `__dirname` -/
  dirname : String
  /-- Models `path.isAbsolute` -/
  pathIsAbsolute : String → Bool
  /-- Models `path.join` of two segments -/
  pathJoin : String → String → String
  /-- Models `path.dirname` -/
  pathDirname : String → String
  /-- Models `path.basename(path, ext)` -/
  pathBasename : String → String → String
  /-- Models `Date.now()` -/
  now : Nat
  /-- the value of `getTimestamp()` -/
  timestamp : String

/-- Console output, one constructor per message of the scripts (the source line is quoted). -/
inductive Msg where
  /-- safe-query 62-66: `Usage: node safe-query.js <query_file> [max_bytes]` and examples -/
  | usage
  /-- safe-query 75, run-query 190: `Query file not found: <path>` -/
  | fileNotFound (path : String)
  /-- safe-query 79: `Validating query (dry run)...` -/
  | validating
  /-- safe-query 96-97: `Query validation failed:` and `error.stderr || error.message` -/
  | validationFailed (detail : String)
  /-- safe-query 112-113: `Could not determine bytes processed` and the dry run output -/
  | couldNotDetermine (dryRunResult : String)
  /-- safe-query 120-122: bytes, estimated cost and size of the estimate -/
  | estimate (bytesProcessed : JSNum) (cost : String)
  /-- safe-query 126: `Query exceeds limit of <maxBytes> bytes` -/
  | exceedsLimit (maxBytes : JSNum)
  /-- safe-query 141: `Query cancelled for safety` -/
  | cancelled
  /-- safe-query 146: `Running query with byte limit...` -/
  | running
  /-- safe-query 165: `Query completed` -/
  | completed
  /-- safe-query 167: `Query failed with exit code <code>` -/
  | failed (code : Int)
  /-- safe-query 173: `Error: <message>` -/
  | error (message : String)
  /-- run-query 34-51: usage text -/
  | showUsage
  /-- run-query 204-207: banner with query, output and limit -/
  | banner (queryFile outputFile : String) (limit : JSNum)
  /-- run-query 98: `Running dry run to check cost...` -/
  | dryRunStart
  /-- run-query 111-112: `Will process: <size>GB` and `Estimated cost: $<cost>` -/
  | dryRunEstimate (bytesProcessed : JSNum) (costEstimate : String)
  /-- run-query 117: `Dry run failed, proceeding anyway...` -/
  | dryRunFailed
  /-- run-query 218: `Dry run completed` -/
  | dryRunCompleted
  /-- run-query 224: `Running BigQuery...` -/
  | runningBigQuery
  /-- run-query 234: `Query completed successfully!` -/
  | completedSuccessfully
  /-- run-query 238: `Saved: <file> (<size>KB)` -/
  | saved (outputFile : String) (size : Nat)
  /-- run-query 244-260: preview of the first rows and the column analysis of the content,
  printed when the content has more than one non-blank line -/
  | preview (content : String)
  /-- run-query 264: `Query completed with warnings...` -/
  | completedWithWarnings
  /-- run-query 266: `Results saved: <file>` -/
  | resultsSaved (outputFile : String)
  /-- run-query 270-271: `Error details:` and the stderr of the subprocess -/
  | errorDetails (stderr : String)
  /-- run-query 274: `BigQuery Error: <message>` -/
  | bigQueryError (message : String)
  /-- run-query 282, create-view 204: `Script Error: <message>` -/
  | scriptError (message : String)
  /-- create-view 29-46: usage text -/
  | viewUsage
  /-- create-view 61: `Both view name and query file are required` -/
  | viewArgsRequired
  /-- create-view 110-113: banner with query file, view name and description -/
  | viewBanner (queryFile fullViewName description : String)
  /-- create-view 139-143: the statement and the command that a dry run would execute -/
  | viewDryRun (viewStatement command : String)
  /-- create-view 145: `Creating BigQuery view...` -/
  | creatingView
  /-- create-view 156-157: `View created successfully!` and the view name -/
  | viewCreated (fullViewName : String)
  /-- create-view 160: `Testing view with SELECT * LIMIT 5...` -/
  | testingView
  /-- create-view 170-172: `View test successful!` and the sample rows -/
  | viewTestSuccessful (testResult : String)
  /-- create-view 175: `View created but test failed - check the view manually` -/
  | viewTestFailed
  /-- create-view 180-181: `View creation completed with warnings...` and the stdout -/
  | viewWarnings (stdout : String)
  /-- create-view 183: `View creation failed: <message>` -/
  | viewCreationFailed (message : String)
  /-- create-view 185: `Error details:` and the stderr of the subprocess -/
  | viewErrorDetails (stderr : String)
  /-- create-view 196-200: usage tips naming the view -/
  | usageTips (fullViewName : String)
  deriving DecidableEq

/-- One observable effect of a run. -/
inductive Event where
  /-- Models `colorLog` / `console.log` -/
  | log (m : Msg)
  /-- Models `execSync(command)` with the given `input` -/
  | execSync (command : String) (input : Option String)
  /-- Models `rl.question(prompt, ...)`: the confirmation prompt -/
  | question (prompt : String)
  /-- Models `spawn(command, args)` with `shell: true` -/
  | spawn (command : String) (args : List String)
  /-- Models `child.stdin.write(data)` followed by `child.stdin.end()` -/
  | stdinWrite (data : String)
  /-- Models `fs.mkdirSync(path)` with `recursive: true` -/
  | mkdir (path : String)
  /-- Models `fs.writeFileSync(path, data)` that returned -/
  | writeFile (path data : String)
  /-- Models `fs.writeFileSync(path, data)` that threw -/
  | writeFileFailed (path data : String)
  /-- Models `fs.unlinkSync(path)` inside a `try` whose `catch` is empty -/
  | unlink (path : String)
  /-- Models `process.exit(code)` -/
  | exit (code : Int)
  deriving DecidableEq

/-- Whether an effect is the confirmation prompt. -/
def Event.isPrompt : Event → Bool
  | .question _ => true
  | _ => false

/-- Whether an effect starts the execution subprocess of safe-query (`spawn`). -/
def Event.isSpawn : Event → Bool
  | .spawn _ _ => true
  | _ => false

/-- Whether an effect is a subprocess run by `execSync`. -/
def Event.isExec : Event → Bool
  | .execSync _ _ => true
  | _ => false

/-- Whether an effect is the attempt to delete the file at `path`. -/
def Event.isUnlinkOf (path : String) : Event → Bool
  | .unlink p => p == path
  | _ => false

/-- Whether an effect writes a file, successfully or not. -/
def Event.isWrite : Event → Bool
  | .writeFile _ _ => true
  | .writeFileFailed _ _ => true
  | _ => false

/-- A finished run: its effects in order and the exit code of the process (`0` when the
script runs to its end without `process.exit`). -/
structure Run where
  events : List Event
  exitCode : Int

/-! ## `safe-query.js` -/

/-- The dry-run command line of safe-query 86. -/
def dryRunCmd : String := "bq query --dry_run --use_legacy_sql=false --format=json"

/-- The test `answer.toLowerCase() !== 'y'` of safe-query 140.  Lower-casing is applied to
ASCII letters; no other character lower-cases to `y`, so the test agrees with JavaScript
on every answer. -/
def declines (answer : String) : Bool := String.mk (answer.toList.map Char.toLower) != "y"

/-- Lines 101-116 of safe-query: the byte count of a dry-run output, `none` when both the
structured parse and the text pattern fail (the branch that exits with code 1).  The `try`
block throws when `JSON.parse` throws and when the parsed value is `null`. -/
def parseDryRun (env : Env) (dryRunResult : String) : Option JSNum :=
  let structured : Option JSNum :=
    match env.jsonParse dryRunResult with
    | none => none
    | some .null => none
    | some result => some (totalBytesProcessed result)
  match structured with
  | some bytesProcessed => some bytesProcessed
  | none =>
    match regexMatch bytesGroup bytesRest dryRunResult.toList with
    | some bytesMatch => some (parseInt (String.mk (bytesMatch.filter fun c => c != ',')))
    | none => none

/-- Lines 146-170 of safe-query: the bounded execution and the `close` handler. -/
def executeBounded (env : Env) (maxBytes : JSNum) (query : String) : Run :=
  let events := [Event.log .running,
    .spawn "bq" ["query", "--maximum_bytes_billed=" ++ maxBytes.toStr, "--use_legacy_sql=false"],
    .stdinWrite query]
  if env.closeCode = 0 then ⟨events ++ [.log .completed], 0⟩
  else ⟨events ++ [.log (.failed env.closeCode), .exit env.closeCode], env.closeCode⟩

/-- Lines 124-170 of safe-query: the threshold gate followed by the bounded execution. -/
def gateAndExecute (env : Env) (maxBytes bytesProcessed : JSNum) (query : String) : Run :=
  if bytesProcessed.gt maxBytes then
    let asked := [Event.log (.exceedsLimit maxBytes), .question "Continue anyway? (y/N): "]
    if declines env.answer then ⟨asked ++ [.log .cancelled, .exit 0], 0⟩
    else
      let r := executeBounded env maxBytes query
      ⟨asked ++ r.events, r.exitCode⟩
  else executeBounded env maxBytes query

/-- Line 71 of safe-query, `parseInt(args[1]) || 104857600`, from the arguments after the
query file (`args[1]` is `undefined` when there is none, and `parseInt` gives `NaN`). -/
def maxBytesArg (rest : List String) : JSNum :=
  let given : JSNum := match rest.head? with
    | some a => parseInt a
    | none => .nan
  if given.truthy then given else .int 104857600

/-- The script `safe-query.js` run with the command-line arguments `args`. -/
def safeQuery (args : List String) (env : Env) : Run :=
  match args with
  | [] => ⟨[.log .usage, .exit 1], 1⟩
  | queryFile :: rest =>
    let maxBytes := maxBytesArg rest
    if !env.existsSync queryFile then ⟨[.log (.fileNotFound queryFile), .exit 1], 1⟩
    else
      match env.readFileSync queryFile with
      | .error message => ⟨[.log .validating, .log (.error message), .exit 1], 1⟩
      | .ok query =>
        let started := [Event.log .validating, .execSync dryRunCmd (some query)]
        match env.execSync dryRunCmd (some query) with
        | .error err =>
          let detail := if err.stderr != "" then err.stderr else err.message
          ⟨started ++ [.log (.validationFailed detail), .exit 1], 1⟩
        | .ok dryRunResult =>
          match parseDryRun env dryRunResult with
          | none => ⟨started ++ [.log (.couldNotDetermine dryRunResult), .exit 1], 1⟩
          | some bytesProcessed =>
            let cost := calculateCost bytesProcessed
            let r := gateAndExecute env maxBytes bytesProcessed query
            ⟨started ++ [.log (.estimate bytesProcessed cost)] ++ r.events, r.exitCode⟩

/-! ## `run-query.js` -/

/-- The `options` object of `parseArgs`. -/
structure Options where
  limit : JSNum
  output : Option String
  preview : JSNum
  dryRun : Bool

/-- The defaults of run-query 63-68. -/
def defaultOptions : Options :=
  { limit := .int 15000000000, output := none, preview := .int 10, dryRun := false }

/-- The expression `parseInt(value) || current` of run-query 73 and 79. -/
def parseIntOr (value : String) (current : JSNum) : JSNum :=
  if (parseInt value).truthy then parseInt value else current

/-- The option loop of run-query 70-85 over the arguments after the query file.  An option
that takes a value consumes the next argument whatever it is; at the end of the list the
value is `undefined`. -/
def parseOptions : List String → Options → Options
  | [], o => o
  | a :: rest, o =>
    if a = "--limit" then
      match rest with
      | [] => o
      | v :: rest => parseOptions rest { o with limit := parseIntOr v o.limit }
    else if a = "--output" then
      match rest with
      | [] => { o with output := none }
      | v :: rest => parseOptions rest { o with output := some v }
    else if a = "--preview" then
      match rest with
      | [] => o
      | v :: rest => parseOptions rest { o with preview := parseIntOr v o.preview }
    else if a = "--dry-run" then parseOptions rest { o with dryRun := true }
    else parseOptions rest o

/-- Models `parseArgs()` of run-query: `none` when the usage text is shown and the process exits
with code 0, else the query file and the options. -/
def parseArgs (args : List String) : Option (String × Options) :=
  match args with
  | [] => none
  | queryFile :: rest =>
    if args.contains "--help" || args.contains "-h" then none
    else some (queryFile, parseOptions rest defaultOptions)

/-- The value `runDryRun` returns. -/
structure Estimate where
  bytesProcessed : JSNum
  costEstimate : String

/-- The dry-run command line of run-query 99. -/
def dryCmd (tempQuery : String) : String :=
  "bq query --dry_run --use_legacy_sql=false --format=json < " ++ tempQuery

/-- The cost expression of run-query 108: `(bytesProcessed / 1099511627776 * 5).toFixed(4)`. -/
def costEstimateOf : JSNum → String
  | .nan => "NaN"
  | .inf neg => if neg then "-Infinity" else "Infinity"
  | .int bytesProcessed =>
    (((Double.ofInt bytesProcessed).div (Double.ofInt 1099511627776)).mul
      (Double.ofInt 5)).toFixed 4

/-- Models `runDryRun(tempQuery)` of run-query 96-120: its effects and the value it returns.  Any
exception inside the `try` (a failing subprocess, a `JSON.parse` error, a `null` result)
lands in the `catch`, which returns a zero estimate. -/
def runDryRun (env : Env) (tempQuery : String) : List Event × Estimate :=
  let started := [Event.log .dryRunStart, .execSync (dryCmd tempQuery) none]
  let failed : List Event × Estimate :=
    (started ++ [.log .dryRunFailed], { bytesProcessed := .int 0, costEstimate := "0.0000" })
  match env.execSync (dryCmd tempQuery) none with
  | .error _ => failed
  | .ok dryResult =>
    match env.jsonParse dryResult with
    | none => failed
    | some .null => failed
    | some result =>
      let bytesProcessed := totalBytesProcessed result
      let costEstimate := costEstimateOf bytesProcessed
      (started ++ [.log (.dryRunEstimate bytesProcessed costEstimate)],
        { bytesProcessed := bytesProcessed, costEstimate := costEstimate })

/-- Models `String.prototype.trim`. -/
def trim (s : String) : String :=
  String.mk ((s.toList.dropWhile isWhiteSpace).reverse.dropWhile isWhiteSpace).reverse

/-- Models `String.prototype.includes`. -/
def includes (s sub : String) : Bool :=
  s.toList.tails.any fun t => sub.toList.isPrefixOf t

/-- The path resolution `path.isAbsolute(p) ? p : path.join(__dirname, p)`. -/
def resolvePath (env : Env) (p : String) : String :=
  if env.pathIsAbsolute p then p else env.pathJoin env.dirname p

/-- Models `generateOutputFilename(queryFile)`. -/
def generateOutputFilename (env : Env) (queryFile : String) : String :=
  env.pathBasename queryFile ".sql" ++ "_" ++ env.timestamp ++ ".csv"

/-- The execution command line of run-query 225. -/
def queryCmd (limit : JSNum) (tempQuery : String) : String :=
  "bq query --use_legacy_sql=false --format=csv --maximum_bytes_billed=" ++ limit.toStr ++
    " < " ++ tempQuery

/-- The outer `catch` of run-query 281-284. -/
def scriptError (events : List Event) (message : String) : Run :=
  ⟨events ++ [.log (.scriptError message), .exit 1], 1⟩

/-- Models `content.split('\n')`: the pieces of a text between its line feeds. -/
def splitLines : List Char → List (List Char)
  | [] => [[]]
  | c :: cs =>
    if c = '\n' then [] :: splitLines cs
    else
      match splitLines cs with
      | [] => [[c]]
      | l :: ls => (c :: l) :: ls

/-- Lines 242-244 of run-query: `content.split('\n').filter(l => l.trim())` has more than one
line, that is, the result has a header and at least one row. -/
def hasDataRows (content : String) : Bool :=
  decide (1 < ((splitLines content.toList).filter fun l => trim (String.mk l) != "").length)

/-- Lines 223-279 of run-query: the execution, the persistence of its output and the cleanup
of the temporary file.  The inner `try` holds the subprocess call and everything done with
its output, so an error thrown by `writeFileSync`, `statSync` or `readFileSync` there lands
in the same `catch (execError)` as a failing subprocess: that error has no `stdout`, so it
is reported as `BigQuery Error` and the run goes on to the cleanup.  A `writeFileSync` that
throws inside the `catch` block itself reaches the outer `catch`. -/
def executeQuery (env : Env) (limit : JSNum) (outputFile fullOutputPath tempQuery : String)
    (events : List Event) : Run :=
  let cmd := queryCmd limit tempQuery
  let events := events ++ [.log .runningBigQuery, .execSync cmd none]
  match env.execSync cmd none with
  | .ok result =>
    let events := events ++ [.log .completedSuccessfully]
    match env.writeFileSync fullOutputPath result with
    | .error message =>
      ⟨events ++ [.writeFileFailed fullOutputPath result, .log (.bigQueryError message),
        .unlink tempQuery], 0⟩
    | .ok _ =>
      let events := events ++ [.writeFile fullOutputPath result]
      match env.statSize fullOutputPath with
      | .error message => ⟨events ++ [.log (.bigQueryError message), .unlink tempQuery], 0⟩
      | .ok size =>
        let events := events ++ [.log (.saved outputFile size)]
        match env.readFileSync fullOutputPath with
        | .error message => ⟨events ++ [.log (.bigQueryError message), .unlink tempQuery], 0⟩
        | .ok content =>
          ⟨events ++ (if hasDataRows content then [.log (.preview content)] else []) ++
            [.unlink tempQuery], 0⟩
  | .error execError =>
    if execError.stdout != "" && trim execError.stdout != "" then
      let events := events ++ [.log .completedWithWarnings]
      match env.writeFileSync fullOutputPath execError.stdout with
      | .error message =>
        scriptError (events ++ [.writeFileFailed fullOutputPath execError.stdout]) message
      | .ok _ =>
        let events := events ++
          [.writeFile fullOutputPath execError.stdout, .log (.resultsSaved outputFile)]
        let events :=
          if execError.stderr != "" && !includes execError.stderr "Waiting on bqjob" then
            events ++ [.log (.errorDetails execError.stderr)]
          else events
        ⟨events ++ [.unlink tempQuery], 0⟩
    else ⟨events ++ [.log (.bigQueryError execError.message), .unlink tempQuery], 0⟩

/-- Line 195 of run-query: `options.output || generateOutputFilename(queryFile)`. -/
def outputFileOf (env : Env) (queryFile : String) (options : Options) : String :=
  match options.output with
  | some o => if o != "" then o else generateOutputFilename env queryFile
  | none => generateOutputFilename env queryFile

/-- Lines 199-202 of run-query: the output directory is created when it does not exist. -/
def ensureOutputDir (env : Env) (outputDir : String) : Except String (List Event) :=
  if !env.existsSync outputDir then
    match env.mkdirSync outputDir with
    | .error message => .error message
    | .ok _ => .ok [.mkdir outputDir]
  else .ok []

/-- Line 211 of run-query: the name of the temporary SQL file. -/
def tempQueryName (env : Env) : String :=
  "temp_universal_" ++ (JSNum.int env.now).toStr ++ ".sql"

/-- The script `run-query.js` run with the command-line arguments `args`. -/
def runQuery (args : List String) (env : Env) : Run :=
  match parseArgs args with
  | none => ⟨[.log .showUsage, .exit 0], 0⟩
  | some (queryFile, options) =>
    let fullQueryPath := resolvePath env queryFile
    if !env.existsSync fullQueryPath then ⟨[.log (.fileNotFound fullQueryPath), .exit 1], 1⟩
    else
      let outputFile := outputFileOf env queryFile options
      let fullOutputPath := resolvePath env outputFile
      match ensureOutputDir env (env.pathDirname fullOutputPath) with
      | .error message => scriptError [] message
      | .ok events =>
        let events := events ++ [.log (.banner queryFile outputFile options.limit)]
        match env.readFileSync fullQueryPath with
        | .error message => scriptError events message
        | .ok query =>
          let tempQuery := tempQueryName env
          match env.writeFileSync tempQuery query with
          | .error message => scriptError (events ++ [.writeFileFailed tempQuery query]) message
          | .ok _ =>
            let dry := runDryRun env tempQuery
            let events := events ++ [.writeFile tempQuery query] ++ dry.1
            if options.dryRun then ⟨events ++ [.log .dryRunCompleted, .unlink tempQuery], 0⟩
            else executeQuery env options.limit outputFile fullOutputPath tempQuery events

/-! ## `safe-query.js`: number formatting -/

/-- Regular-expression class `\w`: ASCII letters, digits and the underscore. -/
def isWordChar (c : Char) : Bool :=
  let n := c.toNat
  (48 ≤ n && n ≤ 57) || (65 ≤ n && n ≤ 90) || (97 ≤ n && n ≤ 122) || n == 95

/-- The assertion `\B` between two neighbouring characters (`none` is outside the string and
counts as a non-word character): both are word characters or neither is. -/
def nonWordBoundary (prev next : Option Char) : Bool :=
  (prev.map isWordChar).getD false == (next.map isWordChar).getD false

/-- The pattern `\d{3}`. -/
def threeDigits : Regex := .seq (.cls isDigit) (.seq (.cls isDigit) (.cls isDigit))

/-- The lookahead `(?=(\d{3})+(?!\d))` on the remaining input: some way of matching
`(\d{3})+` is followed by the end of the input or by a character that is not a digit. -/
def groupLookahead (rest : List Char) : Bool :=
  ((Regex.plus threeDigits).run rest).any fun r =>
    match r.head? with
    | some c => !isDigit c
    | none => true

/-- The replacement `.replace(/\B(?=(\d{3})+(?!\d))/g, ',')`: the pattern matches the empty
string, so every position of the text is tried in turn and a comma is inserted where it
matches.  `prev` is the character before the current position. -/
def insertCommas : Option Char → List Char → List Char
  | prev, [] => if nonWordBoundary prev none && groupLookahead [] then [','] else []
  | prev, c :: cs =>
    (if nonWordBoundary prev (some c) && groupLookahead (c :: cs) then [','] else []) ++
      c :: insertCommas (some c) cs

/-- Models `formatNumber(num)`: `num.toString()` with commas between groups of three digits. -/
def formatNumber (num : JSNum) : String :=
  String.mk (insertCommas none num.toStr.toList)

/-- Models `formatBytes(bytes)` of safe-query 34-48.  Every comparison with `NaN` is false, so `NaN`
takes the last branch, as does `-Infinity`; `Infinity` takes the first, and
`(Infinity / TB).toFixed(2)` is `Infinity`. -/
def formatBytes : JSNum → String
  | .nan => JSNum.nan.toStr ++ " bytes"
  | .inf true => (JSNum.inf true).toStr ++ " bytes"
  | .inf false => "InfinityTB"
  | .int bytes =>
    let TB : Int := 1099511627776
    let GB : Int := 1073741824
    let MB : Int := 1048576
    if TB ≤ bytes then ((Double.ofInt bytes).div (Double.ofInt TB)).toFixed 2 ++ "TB"
    else if GB ≤ bytes then ((Double.ofInt bytes).div (Double.ofInt GB)).toFixed 2 ++ "GB"
    else if MB ≤ bytes then ((Double.ofInt bytes).div (Double.ofInt MB)).toFixed 2 ++ "MB"
    else (JSNum.int bytes).toStr ++ " bytes"

/-- Decimal notation of `n / 100` with exactly two decimal places. -/
def twoPlaces (n : Nat) : String :=
  String.mk (natToDecimal (n / 100) ++ ['.', digitChar (n / 10 % 10), digitChar (n % 10)])

/-! ## `create-view.js` -/

/-- The `options` object of `parseArgs` in create-view.  A value is `none` (`undefined`) when
its option is the last argument. -/
structure ViewOptions where
  dataset : Option String
  project : Option String
  description : Option String
  replace : Bool
  dryRun : Bool
  deriving DecidableEq

/-- The defaults of create-view 66-72. -/
def defaultViewOptions : ViewOptions :=
  { dataset := some "mcp", project := some "airy-runway-456110-g5", description := some "",
    replace := false, dryRun := false }

/-- The option loop of create-view 74-92 over the arguments after the query file. -/
def parseViewOptions : List String → ViewOptions → ViewOptions
  | [], o => o
  | a :: rest, o =>
    if a = "--dataset" then
      match rest with
      | [] => { o with dataset := none }
      | v :: rest => parseViewOptions rest { o with dataset := some v }
    else if a = "--project" then
      match rest with
      | [] => { o with project := none }
      | v :: rest => parseViewOptions rest { o with project := some v }
    else if a = "--description" then
      match rest with
      | [] => { o with description := none }
      | v :: rest => parseViewOptions rest { o with description := some v }
    else if a = "--replace" then parseViewOptions rest { o with replace := true }
    else if a = "--dry-run" then parseViewOptions rest { o with dryRun := true }
    else parseViewOptions rest o

/-- The outcomes of `parseArgs()` in create-view. -/
inductive ViewArgs where
  /-- the usage text is shown and the process exits with code 0 -/
  | usage
  /-- the view name or the query file is missing or empty: exit code 1 -/
  | missing
  /-- the parsed arguments -/
  | parsed (viewName queryFile : String) (options : ViewOptions)

/-- Models `parseArgs()` of create-view 49-95. -/
def parseViewArgs (args : List String) : ViewArgs :=
  match args with
  | [] => .usage
  | viewName :: rest =>
    if args.contains "--help" || args.contains "-h" then .usage
    else
      match rest with
      | [] => .missing
      | queryFile :: optionArgs =>
        if viewName == "" || queryFile == "" then .missing
        else .parsed viewName queryFile (parseViewOptions optionArgs defaultViewOptions)

/-- A value inside a template literal: `undefined` prints as the word. -/
def templateValue (v : Option String) : String := v.getD "undefined"

/-- Line 107 of create-view: the name `project.dataset.view_name`. -/
def fullViewNameOf (options : ViewOptions) (viewName : String) : String :=
  templateValue options.project ++ "." ++ templateValue options.dataset ++ "." ++ viewName

/-- Lines 121-135 of create-view: the `CREATE VIEW` statement for the trimmed query text. -/
def viewStatementOf (options : ViewOptions) (viewName query : String) : String :=
  let fullViewName := fullViewNameOf options viewName
  let head :=
    if options.replace then "CREATE OR REPLACE VIEW `" ++ fullViewName ++ "`"
    else "CREATE VIEW `" ++ fullViewName ++ "`"
  let withOptions :=
    match options.description with
    | some d => if d != "" then head ++ "\nOPTIONS(description=\"" ++ d ++ "\")" else head
    | none => head
  withOptions ++ "\nAS\n" ++ query

/-- Line 118 of create-view: the name of the temporary SQL file. -/
def tempViewName (env : Env) : String :=
  "temp_view_" ++ (JSNum.int env.now).toStr ++ ".sql"

/-- The command line of create-view 147. -/
def viewCmd (tempQuery : String) : String :=
  "bq query --use_legacy_sql=false < " ++ tempQuery

/-- The test command line of create-view 161. -/
def viewTestCmd (fullViewName : String) : String :=
  "echo \"SELECT * FROM `" ++ fullViewName ++ "` LIMIT 5\" | bq query --use_legacy_sql=false"

/-- Lines 137-201 of create-view, after the statement has been built: the temporary file is
written, the statement is shown or executed, and the temporary file is removed. -/
def writeAndCreate (env : Env) (options : ViewOptions) (fullViewName viewStatement : String)
    (events : List Event) : Run :=
  let tempQuery := tempViewName env
  match env.writeFileSync tempQuery viewStatement with
  | .error message =>
    scriptError (events ++ [.writeFileFailed tempQuery viewStatement]) message
  | .ok _ =>
    let events := events ++ [.writeFile tempQuery viewStatement]
    if options.dryRun then
      ⟨events ++ [.log (.viewDryRun viewStatement (viewCmd tempQuery)), .unlink tempQuery], 0⟩
    else
      let events := events ++ [.log .creatingView, .execSync (viewCmd tempQuery) none]
      let events :=
        match env.execSync (viewCmd tempQuery) none with
        | .ok _ =>
          let events := events ++ [.log (.viewCreated fullViewName), .log .testingView,
            .execSync (viewTestCmd fullViewName) none]
          match env.execSync (viewTestCmd fullViewName) none with
          | .ok testResult => events ++ [.log (.viewTestSuccessful testResult)]
          | .error _ => events ++ [.log .viewTestFailed]
        | .error execError =>
          if execError.stdout != "" && trim execError.stdout != "" then
            events ++ [.log (.viewWarnings execError.stdout)]
          else if execError.stderr != "" then
            events ++ [.log (.viewCreationFailed execError.message),
              .log (.viewErrorDetails execError.stderr)]
          else events ++ [.log (.viewCreationFailed execError.message)]
      ⟨events ++ [.unlink tempQuery, .log (.usageTips fullViewName)], 0⟩

/-- The script `create-view.js` run with the command-line arguments `args`. -/
def createView (args : List String) (env : Env) : Run :=
  match parseViewArgs args with
  | .usage => ⟨[.log .viewUsage, .exit 0], 0⟩
  | .missing => ⟨[.log .viewArgsRequired, .log .viewUsage, .exit 1], 1⟩
  | .parsed viewName queryFile options =>
    let fullQueryPath := resolvePath env queryFile
    if !env.existsSync fullQueryPath then ⟨[.log (.fileNotFound fullQueryPath), .exit 1], 1⟩
    else
      let fullViewName := fullViewNameOf options viewName
      let shown := match options.description with
        | some d => if d != "" then d else "No description"
        | none => "No description"
      let events := [Event.log (.viewBanner queryFile fullViewName shown)]
      match env.readFileSync fullQueryPath with
      | .error message => scriptError events message
      | .ok content =>
        writeAndCreate env options fullViewName
          (viewStatementOf options viewName (trim content)) events

/-- The arguments that pass an option set to create-view: each value that is given follows
its option, and the flags follow. -/
def viewOptionArgs (dataset project description : Option String) (replace dryRun : Bool) :
    List String :=
  (match dataset with | some v => ["--dataset", v] | none => []) ++
  (match project with | some v => ["--project", v] | none => []) ++
  (match description with | some v => ["--description", v] | none => []) ++
  (if replace then ["--replace"] else []) ++ (if dryRun then ["--dry-run"] else [])

/-- The run of run-query gets as far as the dry run: the arguments parse to `queryFile` and
`options`, the query file exists and holds `query`, the output directory exists or is
created (`dirEvents`), and the temporary SQL file is written. -/
structure Prepared (env : Env) (args : List String) (queryFile : String) (options : Options)
    (query : String) (dirEvents : List Event) : Prop where
  parsed : parseArgs args = some (queryFile, options)
  fileExists : env.existsSync (resolvePath env queryFile) = true
  outputDir : ensureOutputDir env
    (env.pathDirname (resolvePath env (outputFileOf env queryFile options))) = .ok dirEvents
  fileRead : env.readFileSync (resolvePath env queryFile) = .ok query
  tempWritten : env.writeFileSync (tempQueryName env) query = .ok ()

/-- The effects of run-query up to and including the dry run, for a prepared run. -/
def preparedEvents (env : Env) (queryFile : String) (options : Options) (query : String)
    (dirEvents : List Event) : List Event :=
  dirEvents ++ [.log (.banner queryFile (outputFileOf env queryFile options) options.limit)] ++
    [.writeFile (tempQueryName env) query] ++ (runDryRun env (tempQueryName env)).1

/-! ## Declarative semantics of regular expressions -/

/-- The strings a regular expression matches in full. -/
def Regex.Matches : Regex → List Char → Prop
  | .chr c, u => u = [c]
  | .cls p, u => ∃ x, p x = true ∧ u = [x]
  | .seq a b, u => ∃ v w, u = v ++ w ∧ a.Matches v ∧ b.Matches w
  | .star a, u => ∃ parts : List (List Char), u = parts.flatten ∧ ∀ p ∈ parts, a.Matches p

/-- A text contains a match of `/(\d+(?:,\d{3})*)\s+bytes\s+processed/` whose group is `c`. -/
def ContainsBytesProcessed (text c : List Char) : Prop :=
  ∃ pre t post, text = pre ++ c ++ t ++ post ∧ bytesGroup.Matches c ∧ bytesRest.Matches t

/-! ## Concrete environments -/

/-- A runtime in which the query file holds `SELECT 1`, every file operation succeeds, the
dry run prints a structured report of 1 GiB, execution prints one CSV row, and the operator
answers `n`. -/
def baseEnv : Env where
  existsSync := fun _ => true
  readFileSync := fun _ => .ok "SELECT 1"
  writeFileSync := fun _ _ => .ok ()
  mkdirSync := fun _ => .ok ()
  statSize := fun _ => .ok 4
  execSync := fun cmd _ =>
    if includes cmd "--dry_run" then .ok "report" else .ok "a\n1\n"
  jsonParse := fun _ => some (.obj [("totalBytesProcessed", .str "1073741824")])
  answer := "n"
  closeCode := 0
  dirname := "/work"
  pathIsAbsolute := fun p => p.toList.head? == some '/'
  pathJoin := fun a b => a ++ "/" ++ b
  pathDirname := fun _ => "/work"
  pathBasename := fun _ _ => "query"
  now := 0
  timestamp := "2024-01-01_000000"


/-- The base runtime with an operator who confirms with `Y`. -/
def confirmingEnv : Env := { baseEnv with answer := "Y" }

/-- A runtime whose dry run prints free text instead of a structured report. -/
def textEnv : Env :=
  { baseEnv with
    execSync := fun cmd _ =>
      if includes cmd "--dry_run" then .ok "Dry run: 12,345,678 bytes processed."
      else .ok "a\n1\n"
    jsonParse := fun _ => none }

/-- A runtime whose dry-run subprocess exits with status 1. -/
def failingDryRunEnv : Env :=
  { baseEnv with
    execSync := fun cmd _ =>
      if includes cmd "--dry_run" then
        .error { status := 1, stdout := "", stderr := "Syntax error", message := "Command failed" }
      else .ok "a\n1\n" }

/-- A runtime whose structured report carries the byte count `"-5"`. -/
def negativeEnv : Env :=
  { baseEnv with jsonParse := fun _ => some (.obj [("totalBytesProcessed", .str "-5")]) }

/-- A runtime whose structured report carries the byte count `"abc"`. -/
def notANumberEnv : Env :=
  { baseEnv with jsonParse := fun _ => some (.obj [("totalBytesProcessed", .str "abc")]) }

/-- A runtime whose execution subprocess exits with status 1 and printed nothing. -/
def hardFailEnv : Env :=
  { baseEnv with
    execSync := fun cmd _ =>
      if includes cmd "--dry_run" then .ok "report"
      else .error { status := 1, stdout := "", stderr := "Access Denied",
                    message := "Command failed" } }

/-- A runtime whose execution subprocess exits with status 1 after printing rows. -/
def softFailEnv : Env :=
  { baseEnv with
    execSync := fun cmd _ =>
      if includes cmd "--dry_run" then .ok "report"
      else .error { status := 1, stdout := "a\n1\n", stderr := "Warning",
                    message := "Command failed" } }

/-- A runtime whose execution subprocess exits with status 1 after printing one newline. -/
def blankOutputEnv : Env :=
  { baseEnv with
    execSync := fun cmd _ =>
      if includes cmd "--dry_run" then .ok "report"
      else .error { status := 1, stdout := "\n", stderr := "Access Denied",
                    message := "Command failed" } }

/-- A runtime whose execution subprocess exits with status 1 after printing rows, and in
which only the temporary SQL files can be written. -/
def outputWriteFailsEnv : Env :=
  { softFailEnv with
    writeFileSync := fun path _ =>
      if includes path "temp_" then .ok () else .error "EACCES: permission denied" }

/-- A runtime whose execution subprocess closes with exit code 2. -/
def closeFailEnv : Env := { baseEnv with closeCode := 2, answer := "y" }

/-- A runtime whose query file holds `SELECT 1` between white space. -/
def viewEnv : Env := { baseEnv with readFileSync := fun _ => .ok "  SELECT 1\n" }
/-! ## Theorems -/

/-! ### The backtracking matcher and the declarative semantics -/

theorem starLoop_sound (step : List Char → List (List Char)) (P : List Char → Prop)
    (hstep : ∀ s r, r ∈ step s → ∃ u, s = u ++ r ∧ P u) :
    ∀ fuel s r, r ∈ starLoop step fuel s →
      ∃ parts : List (List Char), s = parts.flatten ++ r ∧ ∀ p ∈ parts, P p := by
  intro fuel
  induction fuel with
  | zero =>
    intro s r h
    simp [starLoop] at h
    exact ⟨[], by simp [h], by simp⟩
  | succ n ih =>
    intro s r h
    simp only [starLoop, List.mem_append, List.mem_flatMap, List.mem_filter, List.mem_singleton] at h
    rcases h with ⟨r1, ⟨hr1, -⟩, hr⟩ | h
    · obtain ⟨u, hs, hu⟩ := hstep s r1 hr1
      obtain ⟨parts, hp, hall⟩ := ih r1 r hr
      refine ⟨u :: parts, ?_, ?_⟩
      · simp [hs, hp]
      · intro p hp'
        rcases List.mem_cons.1 hp' with rfl | h'
        · exact hu
        · exact hall p h'
    · exact ⟨[], by simp [h], by simp⟩

theorem Regex.run_sound : ∀ (re : Regex) (s r : List Char), r ∈ re.run s →
    ∃ u, s = u ++ r ∧ re.Matches u
  | .chr c, s, r, h => by
    cases s with
    | nil => simp [Regex.run] at h
    | cons x xs =>
      simp only [Regex.run] at h
      split at h
      · rename_i hx
        simp at h; subst h; subst hx; exact ⟨[x], by simp, rfl⟩
      · simp at h
  | .cls p, s, r, h => by
    cases s with
    | nil => simp [Regex.run] at h
    | cons x xs =>
      simp only [Regex.run] at h
      split at h
      · rename_i hp
        simp at h; subst h; exact ⟨[x], by simp, x, hp, rfl⟩
      · simp at h
  | .seq a b, s, r, h => by
    simp only [Regex.run, List.mem_flatMap] at h
    obtain ⟨r1, h1, h2⟩ := h
    obtain ⟨u1, hs1, hu1⟩ := Regex.run_sound a s r1 h1
    obtain ⟨u2, hs2, hu2⟩ := Regex.run_sound b r1 r h2
    exact ⟨u1 ++ u2, by simp [hs1, hs2], u1, u2, rfl, hu1, hu2⟩
  | .star a, s, r, h => by
    simp only [Regex.run] at h
    obtain ⟨parts, hs, hall⟩ :=
      starLoop_sound a.run a.Matches (fun s r h => Regex.run_sound a s r h) _ s r h
    exact ⟨parts.flatten, hs, parts, rfl, hall⟩

theorem starLoop_complete (step : List Char → List (List Char)) (P : List Char → Prop)
    (hstep : ∀ u, P u → ∀ r, r ∈ step (u ++ r)) :
    ∀ (parts : List (List Char)), (∀ p ∈ parts, P p) → ∀ fuel r, parts.flatten.length ≤ fuel →
      r ∈ starLoop step fuel (parts.flatten ++ r) := by
  intro parts
  induction parts with
  | nil =>
    intro _ fuel r _
    cases fuel <;> simp [starLoop]
  | cons p ps ih =>
    intro hall fuel r hlen
    have hps : ∀ q ∈ ps, P q := fun q hq => hall q (List.mem_cons_of_mem _ hq)
    by_cases hp : p = []
    · subst hp
      simpa using ih hps fuel r (by simpa using hlen)
    · have hpos : 0 < p.length := List.length_pos.2 hp
      cases fuel with
      | zero =>
        simp only [List.flatten_cons, List.length_append] at hlen
        omega
      | succ n =>
        simp only [starLoop, List.mem_append, List.mem_flatMap, List.mem_filter]
        left
        refine ⟨ps.flatten ++ r, ⟨?_, ?_⟩, ?_⟩
        · have := hstep p (hall p (List.mem_cons_self _ _)) (ps.flatten ++ r)
          simpa using this
        · simp only [List.flatten_cons, List.append_assoc, List.length_append, decide_eq_true_eq]
          omega
        · apply ih hps
          simp only [List.flatten_cons, List.length_append] at hlen
          omega

theorem Regex.run_complete : ∀ (re : Regex) (u : List Char), re.Matches u →
    ∀ r, r ∈ re.run (u ++ r)
  | .chr c, u, h, r => by
    simp only [Regex.Matches] at h
    subst h; simp [Regex.run]
  | .cls p, u, h, r => by
    obtain ⟨x, hp, rfl⟩ := h
    simp [Regex.run, hp]
  | .seq a b, u, h, r => by
    obtain ⟨v, w, rfl, hv, hw⟩ := h
    simp only [Regex.run, List.mem_flatMap]
    exact ⟨w ++ r, by simpa using Regex.run_complete a v hv (w ++ r), Regex.run_complete b w hw r⟩
  | .star a, u, h, r => by
    obtain ⟨parts, rfl, hall⟩ := h
    simp only [Regex.run]
    exact starLoop_complete a.run a.Matches (fun u hu r => Regex.run_complete a u hu r) parts hall _ r
      (by simp)

theorem matchAt_sound (group rest : Regex) (s c : List Char)
    (h : matchAt group rest s = some c) :
    ∃ t post, s = c ++ t ++ post ∧ group.Matches c ∧ rest.Matches t := by
  simp only [matchAt, Option.map_eq_some'] at h
  obtain ⟨r1, hfind, hc⟩ := h
  have hmem : r1 ∈ group.run s := List.mem_of_find?_eq_some hfind
  have hne : (!(rest.run r1).isEmpty) = true :=
    List.find?_some (p := fun r => !(rest.run r).isEmpty) hfind
  obtain ⟨u, hs, hu⟩ := Regex.run_sound group s r1 hmem
  cases hrun : rest.run r1 with
  | nil => simp [hrun] at hne
  | cons r2 rs =>
    have hr2 : r2 ∈ rest.run r1 := by simp [hrun]
    obtain ⟨t, ht, htm⟩ := Regex.run_sound rest r1 r2 hr2
    have hcu : c = u := by
      rw [← hc, hs]; simp
    subst hcu
    exact ⟨t, r2, by rw [hs, ht]; simp, hu, htm⟩

theorem matchAt_complete (group rest : Regex) (c t post : List Char)
    (hc : group.Matches c) (ht : rest.Matches t) :
    (matchAt group rest (c ++ t ++ post)).isSome = true := by
  have h1 : t ++ post ∈ group.run (c ++ t ++ post) := by
    simpa using Regex.run_complete group c hc (t ++ post)
  have h2 : post ∈ rest.run (t ++ post) := Regex.run_complete rest t ht post
  have h3 : (!(rest.run (t ++ post)).isEmpty) = true := by
    cases hrun : rest.run (t ++ post) with
    | nil => simp [hrun] at h2
    | cons _ _ => rfl
  simp only [matchAt, Option.isSome_map']
  rw [List.find?_isSome]
  exact ⟨t ++ post, h1, h3⟩

theorem regexMatch_sound (group rest : Regex) : ∀ (s c : List Char),
    regexMatch group rest s = some c →
    ∃ pre t post, s = pre ++ c ++ t ++ post ∧ group.Matches c ∧ rest.Matches t
  | [], c, h => by
    obtain ⟨t, post, hs, hg, hr⟩ := matchAt_sound group rest [] c (by simpa [regexMatch] using h)
    exact ⟨[], t, post, by simpa using hs, hg, hr⟩
  | x :: xs, c, h => by
    simp only [regexMatch] at h
    cases hm : matchAt group rest (x :: xs) with
    | some c1 =>
      rw [hm] at h
      simp at h
      subst h
      obtain ⟨t, post, hs, hg, hr⟩ := matchAt_sound group rest (x :: xs) c1 hm
      exact ⟨[], t, post, by simpa using hs, hg, hr⟩
    | none =>
      rw [hm] at h
      simp at h
      obtain ⟨pre, t, post, hs, hg, hr⟩ := regexMatch_sound group rest xs c h
      exact ⟨x :: pre, t, post, by simp [hs], hg, hr⟩

theorem regexMatch_complete (group rest : Regex) (c t post : List Char)
    (hc : group.Matches c) (ht : rest.Matches t) : ∀ pre : List Char,
    (regexMatch group rest (pre ++ c ++ t ++ post)).isSome = true
  | [] => by
    have h := matchAt_complete group rest c t post hc ht
    cases hs : c ++ t ++ post with
    | nil =>
      rw [hs] at h
      simp only [List.nil_append, hs]
      simpa [regexMatch] using h
    | cons x xs =>
      rw [hs] at h
      simp only [List.nil_append, hs, regexMatch]
      obtain ⟨v, hv⟩ := Option.isSome_iff_exists.1 h
      simp [hv]
  | x :: pre => by
    have ih := regexMatch_complete group rest c t post hc ht pre
    simp only [List.cons_append, regexMatch]
    cases hm : matchAt group rest (x :: (pre ++ c ++ t ++ post)) with
    | some v => simp
    | none => simpa using ih

/-! ### Digits and `parseInt` -/

theorem isDigit_iff (c : Char) : isDigit c = true ↔ 48 ≤ c.toNat ∧ c.toNat ≤ 57 := by
  simp [isDigit]

theorem isDigit_not_comma (c : Char) (h : isDigit c = true) : c ≠ ',' := by
  rintro rfl
  exact absurd h (by decide)

theorem isDigit_not_whiteSpace (c : Char) (h : isDigit c = true) : isWhiteSpace c = false := by
  rw [isDigit_iff] at h
  simp only [isWhiteSpace, Bool.or_eq_false_iff, Bool.and_eq_false_imp, beq_eq_false_iff_ne,
    decide_eq_true_eq, decide_eq_false_iff_not]
  omega

theorem isDigit_digitVal (c : Char) (h : isDigit c = true) :
    (digitVal 10 c).isSome = true := by
  rw [isDigit_iff] at h
  simp [digitVal, h]

theorem star_cls_all (p : Char → Bool) (u : List Char) (h : (Regex.star (.cls p)).Matches u) :
    ∀ c ∈ u, p c = true := by
  obtain ⟨parts, rfl, hall⟩ := h
  intro c hc
  obtain ⟨part, hpart, hcp⟩ := List.mem_flatten.1 hc
  obtain ⟨x, hx, rfl⟩ := hall part hpart
  simp at hcp
  subst hcp
  exact hx

theorem plus_cls_shape (p : Char → Bool) (u : List Char)
    (h : (Regex.plus (.cls p)).Matches u) :
    ∃ x rest, u = x :: rest ∧ p x = true ∧ ∀ c ∈ rest, p c = true := by
  obtain ⟨v, w, rfl, ⟨x, hx, rfl⟩, hw⟩ := h
  exact ⟨x, w, rfl, hx, star_cls_all p w hw⟩

theorem bytesGroup_shape (c : List Char) (h : bytesGroup.Matches c) :
    ∃ x rest, c = x :: rest ∧ isDigit x = true ∧
      ∀ ch ∈ rest, isDigit ch = true ∨ ch = ',' := by
  obtain ⟨v, w, rfl, hv, parts, rfl, hall⟩ := h
  obtain ⟨x, rest, rfl, hx, hrest⟩ := plus_cls_shape isDigit v hv
  refine ⟨x, rest ++ parts.flatten, rfl, hx, ?_⟩
  intro ch hch
  rcases List.mem_append.1 hch with h1 | h2
  · exact Or.inl (hrest ch h1)
  · obtain ⟨part, hpart, hcp⟩ := List.mem_flatten.1 h2
    obtain ⟨v1, w1, rfl, hv1, v2, w2, rfl, ⟨d1, hd1, rfl⟩, v3, w3, rfl, ⟨d2, hd2, rfl⟩,
      ⟨d3, hd3, rfl⟩⟩ := hall part hpart
    simp only [Regex.Matches] at hv1
    subst hv1
    simp at hcp
    rcases hcp with rfl | rfl | rfl | rfl
    · exact Or.inr rfl
    · exact Or.inl hd1
    · exact Or.inl hd2
    · exact Or.inl hd3

theorem bytesGroup_strip (c : List Char) (h : bytesGroup.Matches c) :
    (c.filter fun ch => ch != ',') ≠ [] ∧
    ∀ ch ∈ c.filter (fun ch => ch != ','), isDigit ch = true := by
  obtain ⟨x, rest, rfl, hx, hrest⟩ := bytesGroup_shape c h
  have hxc : x ≠ ',' := isDigit_not_comma x hx
  constructor
  · simp [List.filter_cons, hxc]
  · intro ch hch
    rw [List.mem_filter] at hch
    obtain ⟨hmem, hne⟩ := hch
    rcases List.mem_cons.1 hmem with rfl | hr
    · exact hx
    · rcases hrest ch hr with h1 | h2
      · exact h1
      · simp [h2] at hne

theorem parseInt_digits (ds : List Char) (hne : ds ≠ [])
    (hall : ∀ c ∈ ds, isDigit c = true) :
    parseInt (String.mk ds) = JSNum.ofNat (digitsValue 10 ds) := by
  obtain ⟨x, rest, rfl⟩ := List.exists_cons_of_ne_nil hne
  have hx : isDigit x = true := hall x (List.mem_cons_self _ _)
  have hws : isWhiteSpace x = false := isDigit_not_whiteSpace x hx
  have hminus : x ≠ '-' := by rintro rfl; exact absurd hx (by decide)
  have hplus : x ≠ '+' := by rintro rfl; exact absurd hx (by decide)
  have hhex : hasHexPrefix (x :: rest) = false := by
    unfold hasHexPrefix
    split
    · rename_i y _ heq
      simp only [List.cons.injEq] at heq
      obtain ⟨-, rfl⟩ := heq
      have hy : isDigit y = true := hall y (by simp)
      have h1 : y ≠ 'x' := by rintro rfl; exact absurd hy (by decide)
      have h2 : y ≠ 'X' := by rintro rfl; exact absurd hy (by decide)
      simp [h1, h2]
    · rfl
  have htake : (x :: rest).takeWhile (fun c => (digitVal 10 c).isSome) = x :: rest := by
    rw [List.takeWhile_eq_self_iff]
    intro c hc
    exact isDigit_digitVal c (hall c hc)
  unfold parseInt
  simp only [String.toList, List.dropWhile_cons, hws, List.head?_cons]
  simp [hminus, hplus, hhex, htake]

theorem digitVal_digitChar (d : Nat) (h : d < 10) : digitVal 10 (digitChar d) = some d := by
  interval_cases d <;> rfl

theorem isDigit_digitChar (d : Nat) (h : d < 10) : isDigit (digitChar d) = true := by
  interval_cases d <;> rfl

theorem digitsValue_snoc (radix : Nat) (cs : List Char) (c : Char) :
    digitsValue radix (cs ++ [c]) = digitsValue radix cs * radix + (digitVal radix c).getD 0 := by
  simp [digitsValue, List.foldl_append]

theorem decimalDigits_spec : ∀ (fuel n : Nat), n < fuel →
    digitsValue 10 (decimalDigits fuel n) = n ∧ decimalDigits fuel n ≠ [] ∧
    ∀ c ∈ decimalDigits fuel n, isDigit c = true
  | 0, n, h => by omega
  | fuel + 1, n, h => by
    unfold decimalDigits
    split
    · rename_i hn
      refine ⟨?_, by simp, ?_⟩
      · simp [digitsValue, digitVal_digitChar n hn]
      · intro c hc
        simp at hc
        subst hc
        exact isDigit_digitChar n hn
    · rename_i hn
      have hlt : n / 10 < fuel := by omega
      obtain ⟨hv, _, hall⟩ := decimalDigits_spec fuel (n / 10) hlt
      refine ⟨?_, by simp, ?_⟩
      · rw [digitsValue_snoc, hv, digitVal_digitChar _ (Nat.mod_lt _ (by norm_num))]
        simp
        omega
      · intro c hc
        rcases List.mem_append.1 hc with h1 | h2
        · exact hall c h1
        · simp at h2
          subst h2
          exact isDigit_digitChar _ (Nat.mod_lt _ (by norm_num))

theorem natToDecimal_spec (n : Nat) :
    digitsValue 10 (natToDecimal n) = n ∧ natToDecimal n ≠ [] ∧
    ∀ c ∈ natToDecimal n, isDigit c = true :=
  decimalDigits_spec (n + 1) n (Nat.lt_succ_self n)

theorem parseDryRun_of_match (env : Env) (out : String) (c : List Char)
    (hjson : env.jsonParse out = none ∨ env.jsonParse out = some .null)
    (hm : regexMatch bytesGroup bytesRest out.toList = some c) :
    parseDryRun env out = some (JSNum.ofNat (digitsValue 10 (c.filter fun ch => ch != ','))) := by
  obtain ⟨pre, t, post, -, hg, -⟩ := regexMatch_sound bytesGroup bytesRest _ _ hm
  obtain ⟨hne, hall⟩ := bytesGroup_strip c hg
  have hm' : regexMatch bytesGroup bytesRest out.data = some c := hm
  rcases hjson with h | h <;> simp [parseDryRun, h, hm', parseInt_digits _ hne hall]

/-! ### Structure of a run of run-query -/

theorem trim_eq_empty_iff (s : String) :
    trim s = "" ↔ ∀ c ∈ s.toList, isWhiteSpace c = true := by
  have h1 : trim s = "" ↔
      ((s.toList.dropWhile isWhiteSpace).reverse.dropWhile isWhiteSpace).reverse = [] := by
    unfold trim
    constructor
    · intro h
      have := congrArg String.data h
      simpa using this
    · intro h
      rw [h]
  rw [h1, List.reverse_eq_nil_iff, List.dropWhile_eq_nil_iff]
  constructor
  · intro h
    have hnil : s.toList.dropWhile isWhiteSpace = [] := by
      by_contra hne
      have hhead := List.head_dropWhile_not isWhiteSpace s.toList hne
      have hmem : (s.toList.dropWhile isWhiteSpace).head hne ∈
          (s.toList.dropWhile isWhiteSpace).reverse :=
        List.mem_reverse.2 (List.head_mem hne)
      rw [h _ hmem] at hhead
      exact absurd hhead (by simp)
    exact List.dropWhile_eq_nil_iff.1 hnil
  · intro h c hc
    have hnil : s.toList.dropWhile isWhiteSpace = [] := List.dropWhile_eq_nil_iff.2 h
    rw [hnil] at hc
    simp at hc

theorem runQuery_prepared (env : Env) (args : List String) (queryFile : String)
    (options : Options) (query : String) (dirEvents : List Event)
    (h : Prepared env args queryFile options query dirEvents) :
    runQuery args env =
      if options.dryRun then
        ⟨preparedEvents env queryFile options query dirEvents ++
          [.log .dryRunCompleted, .unlink (tempQueryName env)], 0⟩
      else
        executeQuery env options.limit (outputFileOf env queryFile options)
          (resolvePath env (outputFileOf env queryFile options)) (tempQueryName env)
          (preparedEvents env queryFile options query dirEvents) := by
  simp only [runQuery, h.parsed, h.fileExists, h.outputDir, h.fileRead, h.tempWritten,
    preparedEvents]
  simp

theorem executeQuery_starts (env : Env) (limit : JSNum)
    (outputFile fullOutputPath tempQuery : String) (events : List Event) :
    ∃ post, (executeQuery env limit outputFile fullOutputPath tempQuery events).events =
      events ++ [.log .runningBigQuery, .execSync (queryCmd limit tempQuery) none] ++ post := by
  unfold executeQuery
  simp only [scriptError]
  repeat' split
  all_goals exact ⟨_, by simp only [List.append_assoc]; rfl⟩

theorem baseEnv_prepared (env : Env) (hex : env.existsSync = baseEnv.existsSync)
    (hrd : env.readFileSync = baseEnv.readFileSync)
    (hwr : env.writeFileSync = baseEnv.writeFileSync) :
    Prepared env ["q.sql"] "q.sql" defaultOptions "SELECT 1" [] :=
  ⟨rfl, by rw [hex]; rfl, by simp [ensureOutputDir, hex, baseEnv], by rw [hrd]; rfl,
    by rw [hwr]; rfl⟩

/-! ### Binary64 rounding -/

theorem log2Fuel_spec : ∀ (fuel n : Nat), 0 < n → n ≤ fuel →
    2 ^ log2Fuel fuel n ≤ n ∧ n < 2 ^ (log2Fuel fuel n + 1)
  | 0, n, h0, h => by omega
  | fuel + 1, n, h0, h => by
    unfold log2Fuel
    split
    · rename_i h2
      have : n = 1 := by omega
      subst this
      simp
    · rename_i h2
      have hpos : 0 < n / 2 := by omega
      have hle : n / 2 ≤ fuel := by omega
      obtain ⟨ih1, ih2⟩ := log2Fuel_spec fuel (n / 2) hpos hle
      constructor
      · rw [pow_succ]
        omega
      · rw [pow_succ]
        omega

theorem two_zpow_toNat (k : Int) :
    ((2 : ℚ) ^ k.toNat) / (2 : ℚ) ^ (-k).toNat = (2 : ℚ) ^ k := by
  rcases le_total 0 k with h | h
  · have h1 : (-k).toNat = 0 := by omega
    rw [h1, pow_zero, div_one]
    conv_rhs => rw [← Int.toNat_of_nonneg h]
    rw [zpow_natCast]
  · have h1 : k.toNat = 0 := by omega
    rw [h1, pow_zero, one_div]
    have h2 : k = -((-k).toNat : Int) := by omega
    conv_rhs => rw [h2]
    rw [zpow_neg, zpow_natCast]

theorem floorLog2Ratio_le (num den : Nat) (hn : 0 < num) (hd : 0 < den) :
    (2 : ℚ) ^ floorLog2Ratio num den ≤ (num : ℚ) / den := by
  have hdq : (0 : ℚ) < den := by exact_mod_cast hd
  obtain ⟨hn1, -⟩ := log2Fuel_spec num num hn le_rfl
  obtain ⟨-, hd2⟩ := log2Fuel_spec den den hd le_rfl
  unfold floorLog2Ratio
  simp only
  split
  · rename_i hc
    set t : Int := (log2Fuel num num : Int) - (log2Fuel den den : Int) with ht
    have hcq : (den : ℚ) * 2 ^ t.toNat ≤ (num : ℚ) * 2 ^ (-t).toNat := by exact_mod_cast hc
    rw [← two_zpow_toNat t, le_div_iff₀ hdq, div_mul_eq_mul_div, div_le_iff₀ (by positivity)]
    linarith
  · set t : Int := (log2Fuel num num : Int) - (log2Fuel den den : Int) with ht
    have hnq : (2 : ℚ) ^ (log2Fuel num num) ≤ num := by exact_mod_cast hn1
    have hdq2 : (den : ℚ) < 2 ^ (log2Fuel den den + 1) := by exact_mod_cast hd2
    rw [le_div_iff₀ hdq]
    have e1 : (2 : ℚ) ^ (t - 1) * 2 ^ (log2Fuel den den + 1) = 2 ^ (log2Fuel num num) := by
      rw [← zpow_natCast, ← zpow_natCast, ← zpow_add₀ (by norm_num)]
      congr 1
      push_cast
      omega
    calc (2 : ℚ) ^ (t - 1) * den ≤ 2 ^ (t - 1) * 2 ^ (log2Fuel den den + 1) := by
          apply mul_le_mul_of_nonneg_left hdq2.le (by positivity)
      _ = 2 ^ (log2Fuel num num) := e1
      _ ≤ num := hnq

theorem roundNearestEven_exact (m den : Nat) (hd : 0 < den) :
    roundNearestEven (m * den) den = m := by
  unfold roundNearestEven
  simp only [Nat.mul_mod_left, Nat.mul_div_cancel _ hd]
  rw [if_neg]
  omega

/-- Rounding is exact on a value that has a 53-bit significand. -/
theorem roundToDouble_exact (num den : Nat) (e : Int) (hd : 0 < den) (N : Nat) (j : Int)
    (hN : N < 2 ^ 53) (hval : (num : ℚ) / den = N * 2 ^ j) :
    ((roundToDouble num den e).1 : ℚ) * 2 ^ (roundToDouble num den e).2 =
      (num : ℚ) / den * 2 ^ e := by
  unfold roundToDouble
  split
  · rename_i h0
    subst h0
    simp
  · rename_i h0
    have hn : 0 < num := Nat.pos_of_ne_zero h0
    have hdq : (0 : ℚ) < den := by exact_mod_cast hd
    have hnq : (0 : ℚ) < num := by exact_mod_cast hn
    set s := floorLog2Ratio num den with hs
    have hle : (2 : ℚ) ^ s ≤ (num : ℚ) / den := floorLog2Ratio_le num den hn hd
    simp only
    set k : Int := 52 - s with hk
    -- the scaled quotient is the integer `N * 2 ^ (j + k)`
    have hNq : (N : ℚ) < 2 ^ (53 : ℕ) := by exact_mod_cast hN
    have hNpos : (0 : ℚ) < N := by
      by_contra hneg
      have : (N : ℚ) = 0 := le_antisymm (not_lt.1 hneg) (by positivity)
      rw [this, zero_mul] at hval
      have : (0 : ℚ) < (num : ℚ) / den := by positivity
      linarith
    have hlt : (2 : ℚ) ^ s < 2 ^ (53 + j) := by
      calc (2 : ℚ) ^ s ≤ N * 2 ^ j := hval ▸ hle
        _ < 2 ^ (53 : ℕ) * 2 ^ j := by
          apply mul_lt_mul_of_pos_right hNq (by positivity)
        _ = 2 ^ (53 + j) := by
          rw [← zpow_natCast, ← zpow_add₀ (by norm_num)]
          norm_num
    have hsj : s < 53 + j := (zpow_lt_zpow_iff_right₀ (by norm_num : (1 : ℚ) < 2)).1 hlt
    have hjk : 0 ≤ j + k := by omega
    have hquot : ((num * 2 ^ k.toNat : ℕ) : ℚ) =
        ((N * 2 ^ (j + k).toNat : ℕ) : ℚ) * ((den * 2 ^ (-k).toNat : ℕ) : ℚ) := by
      push_cast
      have h1 : (num : ℚ) = N * 2 ^ j * den := by
        rw [← hval]; field_simp
      have h2 : (2 : ℚ) ^ (j + k).toNat = 2 ^ j * 2 ^ k := by
        rw [← zpow_natCast, Int.toNat_of_nonneg hjk, zpow_add₀ (by norm_num)]
      have h3 := two_zpow_toNat k
      have h4 : (2 : ℚ) ^ k.toNat = 2 ^ k * 2 ^ (-k).toNat := by
        rw [← h3]; field_simp
      rw [h1, h2, h4]
      ring
    have hnat : num * 2 ^ k.toNat = N * 2 ^ (j + k).toNat * (den * 2 ^ (-k).toNat) := by
      exact_mod_cast hquot
    have hden : 0 < den * 2 ^ (-k).toNat := by positivity
    rw [hnat, roundNearestEven_exact _ _ hden]
    push_cast
    rw [← zpow_natCast, Int.toNat_of_nonneg hjk, hval]
    rw [mul_assoc, ← zpow_add₀ (by norm_num), mul_assoc, ← zpow_add₀ (by norm_num)]
    congr 2
    omega

theorem scaledRound_eq_floor (x : Double) (f : Nat) :
    x.scaledRound f = ⌊(x.m : ℚ) * 2 ^ x.e * 10 ^ f + 1 / 2⌋₊ := by
  unfold Double.scaledRound
  split
  · rename_i he
    have h1 : (x.m : ℚ) * 2 ^ x.e * 10 ^ f = ((x.m * 2 ^ x.e.toNat * 10 ^ f : ℕ) : ℚ) := by
      push_cast
      rw [← zpow_natCast (2 : ℚ), Int.toNat_of_nonneg he]
    rw [h1]
    symm
    rw [Nat.floor_eq_iff (by positivity)]
    constructor <;> linarith
  · rename_i he
    have hneg : x.e = -((-x.e).toNat : Int) := by omega
    set p := (-x.e).toNat with hp
    have h1 : (x.m : ℚ) * 2 ^ x.e * 10 ^ f + 1 / 2 =
        ((2 * (x.m * 10 ^ f) + 2 ^ p : ℕ) : ℚ) / ((2 * 2 ^ p : ℕ) : ℚ) := by
      push_cast
      rw [hneg, zpow_neg, zpow_natCast]
      field_simp
      ring
    rw [h1, Nat.floor_div_eq_div]

/-! ### Integers as numbers -/

theorem toDouble_of_le (n : Nat) (h : n ≤ 2 ^ 53) : toDouble n = n := by
  have hex : ∃ (N : Nat) (j : Int), N < 2 ^ 53 ∧ ((n : ℕ) : ℚ) / ((1 : ℕ) : ℚ) = N * 2 ^ j := by
    rcases Nat.lt_or_ge n (2 ^ 53) with hlt | hge
    · exact ⟨n, 0, hlt, by simp⟩
    · have hn : n = 2 ^ 53 := le_antisymm h hge
      refine ⟨1, 53, by norm_num, ?_⟩
      rw [hn]
      norm_num
  obtain ⟨N, j, hN, hval⟩ := hex
  have e1 := roundToDouble_exact n 1 0 (by norm_num) N j hN hval
  simp only [zpow_zero, mul_one, Nat.cast_one, div_one] at e1
  unfold toDouble
  simp only
  split
  · rename_i he
    have : ((((roundToDouble n 1 0).1 * 2 ^ (roundToDouble n 1 0).2.toNat : ℕ)) : ℚ) = n := by
      push_cast
      rw [← zpow_natCast (2 : ℚ), Int.toNat_of_nonneg he]
      exact e1
    exact_mod_cast this
  · rfl

theorem overflowBound_gt : 2 ^ 53 < overflowBound := by
  unfold overflowBound
  norm_num

theorem JSNum.ofNat_of_le (n : Nat) (h : n ≤ 2 ^ 53) : JSNum.ofNat n = .int n := by
  have hlt : n < overflowBound := lt_of_le_of_lt h overflowBound_gt
  simp [JSNum.ofNat, toDouble_of_le n h, hlt]

theorem natToStr_of_le (n : Nat) (h : n ≤ 2 ^ 53) : natToStr n = natToDecimal n := by
  unfold natToStr
  rw [if_pos h]

theorem toStr_nat (n : Nat) (h : n ≤ 2 ^ 53) :
    (JSNum.int (n : Int)).toStr = String.mk (natToDecimal n) := by
  have hn : ¬ ((n : Int) < 0) := by omega
  simp [JSNum.toStr, hn, natToStr_of_le n h]

theorem parseInt_toStr_nat (n : Nat) (h : n ≤ 2 ^ 53) :
    parseInt (JSNum.int n).toStr = .int n := by
  obtain ⟨hv, hne, hall⟩ := natToDecimal_spec n
  rw [toStr_nat n h, parseInt_digits _ hne hall, hv, JSNum.ofNat_of_le n h]

/-! ### Rendering with four decimal places -/

theorem decimalDigits_fuel : ∀ (f1 f2 n : Nat), n < f1 → n < f2 →
    decimalDigits f1 n = decimalDigits f2 n
  | 0, _, n, h1, _ => by omega
  | _ + 1, 0, n, _, h2 => by omega
  | f1 + 1, f2 + 1, n, h1, h2 => by
    unfold decimalDigits
    split
    · rfl
    · rw [decimalDigits_fuel f1 f2 (n / 10) (by omega) (by omega)]

theorem natToDecimal_lt (n : Nat) (h : n < 10) : natToDecimal n = [digitChar n] := by
  simp [natToDecimal, decimalDigits, h]

theorem natToDecimal_ge (n : Nat) (h : 10 ≤ n) :
    natToDecimal n = natToDecimal (n / 10) ++ [digitChar (n % 10)] := by
  have h' : ¬ n < 10 := by omega
  unfold natToDecimal
  rw [decimalDigits, if_neg h', decimalDigits_fuel n (n / 10 + 1) (n / 10) (by omega) (by omega)]

theorem natToDecimal_step (n q : Nat) (hq : q = n / 10) (h : 10 ≤ n) :
    natToDecimal n = natToDecimal q ++ [digitChar (n % 10)] := by
  subst hq
  exact natToDecimal_ge n h

theorem split_last_four (A : List Char) (a b c d : Char) (hA : A ≠ []) :
    let m := A ++ [a, b, c, d]
    let m := if m.length ≤ 4 then List.replicate (4 + 1 - m.length) '0' ++ m else m
    m.take (m.length - 4) ++ ['.'] ++ m.drop (m.length - 4) = A ++ ['.', a, b, c, d] := by
  have hlen : 0 < A.length := List.length_pos.2 hA
  have h1 : ¬ (A ++ [a, b, c, d]).length ≤ 4 := by
    simp only [List.length_append, List.length_cons, List.length_nil]
    omega
  have h2 : (A ++ [a, b, c, d]).length - 4 = A.length := by
    simp only [List.length_append, List.length_cons, List.length_nil]
    omega
  simp only [h1, if_false, h2]
  rw [List.take_left', List.drop_left']
  · simp
  · rfl
  · rfl

theorem toFixed_four (x : Double) (hpos : x.neg = false) :
    x.toFixed 4 = fourPlaces (x.scaledRound 4) := by
  unfold Double.toFixed fourPlaces
  simp only [hpos, Bool.false_eq_true, false_and, if_false, List.nil_append]
  generalize x.scaledRound 4 = n
  congr 1
  by_cases h4 : 10000 ≤ n
  · have e1 := natToDecimal_step n (n / 10) rfl (by omega)
    have e2 := natToDecimal_step (n / 10) (n / 100) (by omega) (by omega)
    have e3 := natToDecimal_step (n / 100) (n / 1000) (by omega) (by omega)
    have e4 := natToDecimal_step (n / 1000) (n / 10000) (by omega) (by omega)
    have hA := (natToDecimal_spec (n / 10000)).2.1
    have hn : natToDecimal n = natToDecimal (n / 10000) ++
        [digitChar (n / 1000 % 10), digitChar (n / 100 % 10), digitChar (n / 10 % 10),
          digitChar (n % 10)] := by
      rw [e1, e2, e3, e4]
      simp
    rw [hn]
    exact split_last_four _ _ _ _ _ hA
  · have z4 : n / 10000 = 0 := by omega
    rw [z4, natToDecimal_lt 0 (by norm_num)]
    by_cases h3 : 1000 ≤ n
    · have e1 := natToDecimal_step n (n / 10) rfl (by omega)
      have e2 := natToDecimal_step (n / 10) (n / 100) (by omega) (by omega)
      have e3 := natToDecimal_step (n / 100) (n / 1000) (by omega) (by omega)
      have e4 := natToDecimal_lt (n / 1000) (by omega)
      have m3 : n / 1000 % 10 = n / 1000 := by omega
      rw [e1, e2, e3, e4, m3]
      rfl
    · by_cases h2 : 100 ≤ n
      · have e1 := natToDecimal_step n (n / 10) rfl (by omega)
        have e2 := natToDecimal_step (n / 10) (n / 100) (by omega) (by omega)
        have e3 := natToDecimal_lt (n / 100) (by omega)
        have m3 : n / 1000 % 10 = 0 := by omega
        have m2 : n / 100 % 10 = n / 100 := by omega
        rw [e1, e2, e3, m3, m2]
        rfl
      · by_cases h1 : 10 ≤ n
        · have e1 := natToDecimal_step n (n / 10) rfl (by omega)
          have e2 := natToDecimal_lt (n / 10) (by omega)
          have m3 : n / 1000 % 10 = 0 := by omega
          have m2 : n / 100 % 10 = 0 := by omega
          have m1 : n / 10 % 10 = n / 10 := by omega
          rw [e1, e2, m3, m2, m1]
          rfl
        · have e1 := natToDecimal_lt n (by omega)
          have m3 : n / 1000 % 10 = 0 := by omega
          have m2 : n / 100 % 10 = 0 := by omega
          have m1 : n / 10 % 10 = 0 := by omega
          have m0 : n % 10 = n := by omega
          rw [e1, m3, m2, m1, m0]
          rfl

/-- The binary64 value of `bytes / 1099511627776 * 5` is the exact quotient when
`bytes < 2^50`: neither the division nor the multiplication rounds. -/
theorem cost_value_exact (bytes : Nat) (h : bytes < 2 ^ 50) :
    (((Double.ofInt bytes).div (Double.ofInt 1099511627776)).mul (Double.ofInt 5)).neg = false ∧
    ((((Double.ofInt bytes).div (Double.ofInt 1099511627776)).mul (Double.ofInt 5)).m : ℚ) *
      2 ^ (((Double.ofInt bytes).div (Double.ofInt 1099511627776)).mul (Double.ofInt 5)).e =
      (bytes : ℚ) / 1099511627776 * 5 := by
  have hb : Double.ofInt (bytes : Int) = ⟨false, bytes, 0⟩ := by
    have : ¬ ((bytes : Int) < 0) := by omega
    simp [Double.ofInt, this]
  have hT : Double.ofInt 1099511627776 = ⟨false, 1099511627776, 0⟩ := by decide
  have h5 : Double.ofInt 5 = ⟨false, 5, 0⟩ := by decide
  rw [hb, hT, h5]
  simp only [Double.div, Double.mul, sub_self, add_zero, bne_self_eq_false, true_and]
  have hv1 : ((bytes : ℕ) : ℚ) / ((1099511627776 : ℕ) : ℚ) = (bytes : ℚ) * 2 ^ (-40 : ℤ) := by
    rw [div_eq_mul_inv, zpow_neg]
    norm_num
  have e1 := roundToDouble_exact bytes 1099511627776 0 (by norm_num) bytes (-40)
    (by omega) hv1
  simp only [zpow_zero, mul_one, Nat.cast_ofNat] at e1
  set r := roundToDouble bytes 1099511627776 0 with hr
  have hpow : (0 : ℚ) < 2 ^ r.2 := by positivity
  have hm : ((r.1 * 5 : ℕ) : ℚ) / ((1 : ℕ) : ℚ) = ((5 * bytes : ℕ) : ℚ) * 2 ^ (-40 - r.2) := by
    have h1 : (r.1 : ℚ) = (bytes : ℚ) / 1099511627776 * (2 ^ r.2)⁻¹ := by
      rw [← e1]; field_simp
    have h2 : (2 : ℚ) ^ (-40 : ℤ) = 1 / 1099511627776 := by
      rw [zpow_neg]
      norm_num
    push_cast
    rw [h1, zpow_sub₀ (by norm_num), h2]
    field_simp
    ring
  have e2 := roundToDouble_exact (r.1 * 5) 1 r.2 (by norm_num) (5 * bytes) (-40 - r.2)
    (by omega) hm
  rw [e2]
  push_cast
  rw [div_one, mul_right_comm, e1]

/-! ### Options and subprocess invocations -/

theorem parseOptions_limit : ∀ (rest : List String) (o : Options), "--limit" ∉ rest →
    (parseOptions rest o).limit = o.limit
  | [], o, _ => rfl
  | [a], o, h => by
    have ha : a ≠ "--limit" := fun e => h (by simp [e])
    simp only [parseOptions, ha, if_false]
    split_ifs <;> rfl
  | a :: v :: rest, o, h => by
    have ha : a ≠ "--limit" := fun e => h (by simp [e])
    have hr : "--limit" ∉ rest := fun e => h (by simp [e])
    have hvr : "--limit" ∉ v :: rest := fun e => h (List.mem_cons_of_mem _ e)
    simp only [parseOptions, ha, if_false]
    split_ifs
    · exact parseOptions_limit rest _ hr
    · exact parseOptions_limit rest _ hr
    · exact parseOptions_limit (v :: rest) _ hvr
    · exact parseOptions_limit (v :: rest) _ hvr

theorem parseOptions_dryRun : ∀ (rest : List String) (o : Options), "--dry-run" ∉ rest →
    (parseOptions rest o).dryRun = o.dryRun
  | [], o, _ => rfl
  | [a], o, h => by
    have ha : a ≠ "--dry-run" := fun e => h (by simp [e])
    simp only [parseOptions, ha, if_false]
    split_ifs <;> rfl
  | a :: v :: rest, o, h => by
    have ha : a ≠ "--dry-run" := fun e => h (by simp [e])
    have hr : "--dry-run" ∉ rest := fun e => h (by simp [e])
    have hvr : "--dry-run" ∉ v :: rest := fun e => h (List.mem_cons_of_mem _ e)
    simp only [parseOptions, ha, if_false]
    split_ifs
    · exact parseOptions_dryRun rest _ hr
    · exact parseOptions_dryRun rest _ hr
    · exact parseOptions_dryRun rest _ hr
    · exact parseOptions_dryRun (v :: rest) _ hvr

theorem parseArgs_dryRun (args : List String) (queryFile : String) (options : Options)
    (h : parseArgs args = some (queryFile, options)) (hno : "--dry-run" ∉ args) :
    options.dryRun = false := by
  cases args with
  | nil => simp [parseArgs] at h
  | cons q rest =>
    simp only [parseArgs] at h
    split at h
    · simp at h
    · simp only [Option.some.injEq, Prod.mk.injEq] at h
      rw [← h.2, parseOptions_dryRun rest _ (fun e => hno (List.mem_cons_of_mem _ e))]
      rfl

theorem safeQuery_spawn_filter (env : Env) (queryFile : String) (rest : List String) :
    (safeQuery (queryFile :: rest) env).events.filter Event.isSpawn = [] ∨
    (safeQuery (queryFile :: rest) env).events.filter Event.isSpawn =
      [.spawn "bq" ["query", "--maximum_bytes_billed=" ++ (maxBytesArg rest).toStr,
        "--use_legacy_sql=false"]] := by
  simp only [safeQuery, gateAndExecute, executeBounded]
  repeat' split
  all_goals simp [Event.isSpawn, List.filter_cons]

theorem ensureOutputDir_events (env : Env) (dir : String) (dirEvents : List Event)
    (h : ensureOutputDir env dir = .ok dirEvents) :
    dirEvents = [] ∨ dirEvents = [.mkdir dir] := by
  unfold ensureOutputDir at h
  repeat' split at h
  all_goals simp_all

theorem runDryRun_events (env : Env) (tempQuery : String) :
    ∃ m, (runDryRun env tempQuery).1 =
      [.log .dryRunStart, .execSync (dryCmd tempQuery) none, .log m] := by
  unfold runDryRun
  repeat' split
  all_goals exact ⟨_, rfl⟩

theorem runQuery_exec_filter (env : Env) (args : List String) (queryFile : String)
    (options : Options) (h : parseArgs args = some (queryFile, options)) :
    (runQuery args env).events.filter Event.isExec = [] ∨
    (runQuery args env).events.filter Event.isExec =
      [.execSync (dryCmd (tempQueryName env)) none] ∨
    (options.dryRun = false ∧ (runQuery args env).events.filter Event.isExec =
      [.execSync (dryCmd (tempQueryName env)) none,
        .execSync (queryCmd options.limit (tempQueryName env)) none]) := by
  obtain ⟨m, hm⟩ := runDryRun_events env (tempQueryName env)
  simp only [runQuery, h, executeQuery, scriptError]
  split
  · simp [Event.isExec, List.filter_cons]
  · split
    · simp [Event.isExec, List.filter_cons]
    · rename_i evs hdir
      rcases ensureOutputDir_events env _ evs hdir with rfl | rfl
      all_goals
        repeat' split
        all_goals simp_all [Event.isExec, List.filter_cons, List.filter_append]

theorem executeQuery_filters (env : Env) (limit : JSNum)
    (outputFile fullOutputPath tempQuery : String) (events : List Event) :
    (executeQuery env limit outputFile fullOutputPath tempQuery events).events.filter
      Event.isExec = events.filter Event.isExec ++
        [.execSync (queryCmd limit tempQuery) none] ∧
    (executeQuery env limit outputFile fullOutputPath tempQuery events).events.countP
      Event.isPrompt = events.countP Event.isPrompt := by
  unfold executeQuery
  simp only [scriptError]
  repeat' split
  all_goals
    simp [Event.isExec, Event.isPrompt, List.filter_cons, List.filter_append,
      List.countP_cons, List.countP_append]

theorem preparedEvents_filters (env : Env) (args : List String) (queryFile : String)
    (options : Options) (query : String) (dirEvents : List Event)
    (h : Prepared env args queryFile options query dirEvents) :
    (preparedEvents env queryFile options query dirEvents).filter Event.isExec =
      [.execSync (dryCmd (tempQueryName env)) none] ∧
    (preparedEvents env queryFile options query dirEvents).countP Event.isPrompt = 0 := by
  obtain ⟨m, hm⟩ := runDryRun_events env (tempQueryName env)
  rcases ensureOutputDir_events env _ dirEvents h.outputDir with rfl | rfl
  all_goals
    simp [preparedEvents, hm, Event.isExec, Event.isPrompt, List.filter_cons,
      List.countP_cons]

/-! ### create-view -/

theorem parseViewOptions_args (dataset project description : Option String)
    (replace dryRun : Bool) :
    parseViewOptions (viewOptionArgs dataset project description replace dryRun)
      defaultViewOptions =
      { dataset := some (dataset.getD "mcp"),
        project := some (project.getD "airy-runway-456110-g5"),
        description := some (description.getD ""), replace := replace, dryRun := dryRun } := by
  cases dataset <;> cases project <;> cases description <;> cases replace <;> cases dryRun <;>
    simp [viewOptionArgs, parseViewOptions, defaultViewOptions]

theorem writeAndCreate_events (env : Env) (options : ViewOptions)
    (fullViewName viewStatement : String) (events : List Event)
    (hwrite : env.writeFileSync (tempViewName env) viewStatement = .ok ()) :
    ∃ post, (writeAndCreate env options fullViewName viewStatement events).events =
      events ++ [.writeFile (tempViewName env) viewStatement] ++ post ∧
      Event.unlink (tempViewName env) ∈ post := by
  unfold writeAndCreate
  simp only [hwrite]
  repeat' split
  all_goals exact ⟨_, by simp only [List.append_assoc]; rfl, by simp⟩

/-! ### `formatNumber` -/

theorem commaGroup_matches (a b c : Char) (ha : isDigit a = true) (hb : isDigit b = true)
    (hc : isDigit c = true) :
    (Regex.seq (.chr ',') threeDigits).Matches [',', a, b, c] :=
  ⟨[','], [a, b, c], rfl, rfl, [a], [b, c], rfl, ⟨a, ha, rfl⟩, [b], [c], rfl, ⟨b, hb, rfl⟩,
    ⟨c, hc, rfl⟩⟩

theorem threeDigits_matches (a b c : Char) (ha : isDigit a = true) (hb : isDigit b = true)
    (hc : isDigit c = true) : threeDigits.Matches [a, b, c] :=
  ⟨[a], [b, c], rfl, ⟨a, ha, rfl⟩, [b], [c], rfl, ⟨b, hb, rfl⟩, ⟨c, hc, rfl⟩⟩

theorem threeDigits_length (u : List Char) (h : threeDigits.Matches u) : u.length = 3 := by
  obtain ⟨v, w, rfl, ⟨a, -, rfl⟩, v2, w2, rfl, ⟨b, -, rfl⟩, ⟨c, -, rfl⟩⟩ := h
  rfl

theorem star_threeDigits_length (u : List Char) (h : (Regex.star threeDigits).Matches u) :
    u.length % 3 = 0 := by
  obtain ⟨parts, rfl, hall⟩ := h
  induction parts with
  | nil => rfl
  | cons p ps ih =>
    have hp := threeDigits_length p (hall p (List.mem_cons_self _ _))
    have := ih (fun q hq => hall q (List.mem_cons_of_mem _ hq))
    simp only [List.flatten_cons, List.length_append, hp]
    omega

theorem plus_threeDigits_length (u : List Char) (h : (Regex.plus threeDigits).Matches u) :
    0 < u.length ∧ u.length % 3 = 0 := by
  obtain ⟨v, w, rfl, hv, hw⟩ := h
  have h1 := threeDigits_length v hv
  have h2 := star_threeDigits_length w hw
  simp only [List.length_append, h1]
  omega

theorem star_threeDigits_of_digits : ∀ (k : Nat) (u : List Char), u.length = 3 * k →
    (∀ c ∈ u, isDigit c = true) → (Regex.star threeDigits).Matches u
  | 0, u, hlen, _ => by
    have : u = [] := List.length_eq_zero.1 (by omega)
    subst this
    exact ⟨[], rfl, by simp⟩
  | k + 1, u, hlen, hall => by
    match u, hlen, hall with
    | a :: b :: c :: rest, hlen, hall =>
      have hrest : rest.length = 3 * k := by
        simp only [List.length_cons] at hlen
        omega
      obtain ⟨parts, hp, hparts⟩ := star_threeDigits_of_digits k rest hrest
        (fun x hx => hall x (by simp [hx]))
      refine ⟨[a, b, c] :: parts, by simp [hp], ?_⟩
      intro p hp'
      rcases List.mem_cons.1 hp' with rfl | h'
      · exact threeDigits_matches a b c (hall a (by simp)) (hall b (by simp)) (hall c (by simp))
      · exact hparts p h'
    | [], hlen, _ => simp at hlen
    | [_], hlen, _ => simp at hlen; omega
    | [_, _], hlen, _ => simp at hlen; omega

theorem groupLookahead_digits (rest : List Char) (hall : ∀ c ∈ rest, isDigit c = true) :
    groupLookahead rest = decide (0 < rest.length ∧ rest.length % 3 = 0) := by
  by_cases h : 0 < rest.length ∧ rest.length % 3 = 0
  · rw [decide_eq_true h]
    obtain ⟨hpos, hmod⟩ := h
    match rest, hall, hpos, hmod with
    | a :: b :: c :: tl, hall, _, hmod =>
      have htl : tl.length = 3 * (tl.length / 3) := by
        simp only [List.length_cons] at hmod
        omega
      have hstar := star_threeDigits_of_digits (tl.length / 3) tl htl
        (fun x hx => hall x (by simp [hx]))
      have hm : (Regex.plus threeDigits).Matches (a :: b :: c :: tl) :=
        ⟨[a, b, c], tl, rfl,
          threeDigits_matches a b c (hall a (by simp)) (hall b (by simp)) (hall c (by simp)),
          hstar⟩
      have hrun := Regex.run_complete _ _ hm []
      simp only [List.append_nil] at hrun
      unfold groupLookahead
      rw [List.any_eq_true]
      exact ⟨[], hrun, rfl⟩
    | [], _, hpos, _ => simp at hpos
    | [_], _, _, hmod => simp at hmod
    | [_, _], _, _, hmod => simp at hmod
  · rw [decide_eq_false h]
    rw [Bool.eq_false_iff]
    intro ht
    unfold groupLookahead at ht
    rw [List.any_eq_true] at ht
    obtain ⟨r, hr, hcond⟩ := ht
    obtain ⟨u, hu, hm⟩ := Regex.run_sound _ _ _ hr
    cases r with
    | nil =>
      simp only [List.append_nil] at hu
      subst hu
      exact h (plus_threeDigits_length _ hm)
    | cons x xs =>
      have hx : isDigit x = true := hall x (by rw [hu]; simp)
      simp [hx] at hcond

theorem isDigit_isWordChar (c : Char) (h : isDigit c = true) : isWordChar c = true := by
  rw [isDigit_iff] at h
  simp [isWordChar, h]

theorem insertCommas_cons_digit (d c : Char) (cs : List Char) (hd : isDigit d = true)
    (hall : ∀ x ∈ c :: cs, isDigit x = true) :
    insertCommas (some d) (c :: cs) =
      (if (cs.length + 1) % 3 = 0 then [','] else []) ++ c :: insertCommas (some c) cs := by
  have hc : isDigit c = true := hall c (List.mem_cons_self _ _)
  have hb : nonWordBoundary (some d) (some c) = true := by
    simp [nonWordBoundary, isDigit_isWordChar d hd, isDigit_isWordChar c hc]
  rw [insertCommas, hb, groupLookahead_digits _ hall]
  simp

theorem insertCommas_nil_digit (d : Char) (hd : isDigit d = true) :
    insertCommas (some d) [] = [] := by
  simp [insertCommas, nonWordBoundary, isDigit_isWordChar d hd]

/-- The rest of a formatted number after a digit: by the length of the digits left, it is a
run of comma groups preceded by no, one or two digits. -/
theorem insertCommas_tail : ∀ (ds : List Char) (d : Char), isDigit d = true →
    (∀ x ∈ ds, isDigit x = true) →
    (insertCommas (some d) ds).filter (fun ch => ch != ',') = ds ∧
    ∃ lead w, insertCommas (some d) ds = lead ++ w ∧ lead.length = ds.length % 3 ∧
      (∀ x ∈ lead, isDigit x = true) ∧
      (Regex.star (.seq (.chr ',') threeDigits)).Matches w
  | [], d, hd, _ => by
    rw [insertCommas_nil_digit d hd]
    exact ⟨rfl, [], [], rfl, rfl, by simp, [], rfl, by simp⟩
  | c :: cs, d, hd, hall => by
    have hc : isDigit c = true := hall c (List.mem_cons_self _ _)
    have hcs : ∀ x ∈ cs, isDigit x = true := fun x hx => hall x (List.mem_cons_of_mem _ hx)
    obtain ⟨hf, lead, w, hw, hlen, hlead, hstar⟩ := insertCommas_tail cs c hc hcs
    rw [insertCommas_cons_digit d c cs hd hall]
    have hcc : c ≠ ',' := isDigit_not_comma c hc
    constructor
    · split <;> simp [List.filter_cons, hcc, hf]
    · by_cases h3 : (cs.length + 1) % 3 = 0
      · -- a comma and three digits open a new group
        have hl2 : lead.length = 2 := by omega
        match lead, hl2, hlead, hw with
        | [x, y], _, hlead, hw =>
          obtain ⟨parts, hparts, hall'⟩ := hstar
          refine ⟨[], [',', c, x, y] ++ w, ?_, ?_, by simp, ?_⟩
          · simp [h3, hw]
          · simp only [List.length_nil, List.length_cons]; omega
          · refine ⟨[',', c, x, y] :: parts, by simp [hparts], ?_⟩
            intro p hp
            rcases List.mem_cons.1 hp with rfl | hp'
            · exact commaGroup_matches c x y hc (hlead x (by simp)) (hlead y (by simp))
            · exact hall' p hp'
      · refine ⟨c :: lead, w, ?_, ?_, ?_, hstar⟩
        · simp [h3, hw]
        · simp only [List.length_cons]; omega
        · intro x hx
          rcases List.mem_cons.1 hx with rfl | hx'
          · exact hc
          · exact hlead x hx'

theorem star_digit_of_all (u : List Char) (h : ∀ c ∈ u, isDigit c = true) :
    (Regex.star (.cls isDigit)).Matches u :=
  ⟨u.map fun c => [c], by induction u with
    | nil => rfl
    | cons a t ih => simp [← ih (fun c hc => h c (List.mem_cons_of_mem _ hc))],
   by
    intro p hp
    obtain ⟨c, hc, rfl⟩ := List.mem_map.1 hp
    exact ⟨c, h c hc, rfl⟩⟩

/-- The formatted digits of a number match the group of the byte-count pattern and give the
digits back when the commas are removed. -/
theorem insertCommas_digits (ds : List Char) (hne : ds ≠ [])
    (hall : ∀ x ∈ ds, isDigit x = true) :
    (insertCommas none ds).filter (fun ch => ch != ',') = ds ∧
    bytesGroup.Matches (insertCommas none ds) := by
  obtain ⟨c, cs, rfl⟩ := List.exists_cons_of_ne_nil hne
  have hc : isDigit c = true := hall c (List.mem_cons_self _ _)
  have hcs : ∀ x ∈ cs, isDigit x = true := fun x hx => hall x (List.mem_cons_of_mem _ hx)
  obtain ⟨hf, lead, w, hw, -, hlead, hstar⟩ := insertCommas_tail cs c hc hcs
  have hb : nonWordBoundary none (some c) = false := by
    simp [nonWordBoundary, isDigit_isWordChar c hc]
  have htop : insertCommas none (c :: cs) = c :: insertCommas (some c) cs := by
    rw [insertCommas, hb]
    simp
  rw [htop]
  constructor
  · simp [List.filter_cons, isDigit_not_comma c hc, hf]
  · rw [hw]
    exact ⟨c :: lead, w, rfl, ⟨[c], lead, rfl, ⟨c, hc, rfl⟩, star_digit_of_all lead hlead⟩,
      hstar⟩

theorem bytesRest_head (t : List Char) (h : bytesRest.Matches t) :
    ∃ w tl, t = w :: tl ∧ isWhiteSpace w = true := by
  obtain ⟨v, v', rfl, hv, -⟩ := h
  obtain ⟨x, rest, rfl, hx, -⟩ := plus_cls_shape isWhiteSpace v hv
  exact ⟨x, rest ++ v', rfl, hx⟩

theorem prefix_unique (P : Char → Bool) : ∀ (g c r r' : List Char), g ++ r = c ++ r' →
    (∀ x ∈ g, P x = true) → (∀ x ∈ c, P x = true) →
    (∃ x tl, r = x :: tl ∧ P x = false) → (∃ x tl, r' = x :: tl ∧ P x = false) → g = c
  | [], [], _, _, _, _, _, _, _ => rfl
  | [], y :: c, r, r', h, _, hc, ⟨x, tl, hr, hx⟩, _ => by
    subst hr
    simp only [List.nil_append, List.cons_append, List.cons.injEq] at h
    rw [h.1, hc y (List.mem_cons_self _ _)] at hx
    exact absurd hx (by simp)
  | x :: g, [], r, r', h, hg, _, _, ⟨y, tl, hr, hy⟩ => by
    subst hr
    simp only [List.nil_append, List.cons_append, List.cons.injEq] at h
    rw [← h.1, hg x (List.mem_cons_self _ _)] at hy
    exact absurd hy (by simp)
  | x :: g, y :: c, r, r', h, hg, hc, hr, hr' => by
    simp only [List.cons_append, List.cons.injEq] at h
    rw [h.1, prefix_unique P g c r r' h.2 (fun z hz => hg z (List.mem_cons_of_mem _ hz))
      (fun z hz => hc z (List.mem_cons_of_mem _ hz)) hr hr']

theorem bytesGroup_chars (c : List Char) (h : bytesGroup.Matches c) :
    ∀ x ∈ c, (isDigit x || x == ',') = true := by
  obtain ⟨x, rest, rfl, hx, hrest⟩ := bytesGroup_shape c h
  intro y hy
  rcases List.mem_cons.1 hy with rfl | hy'
  · simp [hx]
  · rcases hrest y hy' with h1 | h2
    · simp [h1]
    · simp [h2]

theorem whiteSpace_not_group_char (w : Char) (h : isWhiteSpace w = true) :
    (isDigit w || w == ',') = false := by
  have h1 : isDigit w = false := by
    by_contra hd
    rw [isDigit_not_whiteSpace w (by simpa using hd)] at h
    exact absurd h (by simp)
  have h2 : w ≠ ',' := by
    rintro rfl
    exact absurd h (by decide)
  simp [h1, h2]

/-- A text that starts with a match of the group followed by the rest of the pattern: the
match found is that group. -/
theorem regexMatch_at_start (g t post : List Char) (hg : bytesGroup.Matches g)
    (ht : bytesRest.Matches t) :
    regexMatch bytesGroup bytesRest (g ++ t ++ post) = some g := by
  have hsome := matchAt_complete bytesGroup bytesRest g t post hg ht
  obtain ⟨c, hc⟩ := Option.isSome_iff_exists.1 hsome
  obtain ⟨t', post', hs, hcg, hct⟩ := matchAt_sound bytesGroup bytesRest _ c hc
  obtain ⟨w, tl, rfl, hw⟩ := bytesRest_head t ht
  obtain ⟨w', tl', rfl, hw'⟩ := bytesRest_head t' hct
  have heq : g = c := by
    apply prefix_unique (fun x => isDigit x || x == ',') g c (w :: tl ++ post)
      (w' :: tl' ++ post')
    · simpa [List.append_assoc] using hs
    · exact bytesGroup_chars g hg
    · exact bytesGroup_chars c hcg
    · exact ⟨w, tl ++ post, rfl, whiteSpace_not_group_char w hw⟩
    · exact ⟨w', tl' ++ post', rfl, whiteSpace_not_group_char w' hw'⟩
  subst heq
  obtain ⟨x, rest, rfl, -, -⟩ := bytesGroup_shape g hg
  simp only [List.cons_append, List.append_assoc] at hc ⊢
  simp only [regexMatch, hc]
  rfl

theorem bytesRest_suffix : bytesRest.Matches " bytes processed".toList := by
  have h : [] ∈ bytesRest.run " bytes processed".toList := by decide
  obtain ⟨u, hu, hm⟩ := Regex.run_sound _ _ _ h
  simp only [List.append_nil] at hu
  rw [hu]
  exact hm

/-! ### `formatBytes` -/

theorem split_last_two (A : List Char) (a b : Char) (hA : A ≠ []) :
    let m := A ++ [a, b]
    let m := if m.length ≤ 2 then List.replicate (2 + 1 - m.length) '0' ++ m else m
    m.take (m.length - 2) ++ ['.'] ++ m.drop (m.length - 2) = A ++ ['.', a, b] := by
  have hlen : 0 < A.length := List.length_pos.2 hA
  have h1 : ¬ (A ++ [a, b]).length ≤ 2 := by
    simp only [List.length_append, List.length_cons, List.length_nil]
    omega
  have h2 : (A ++ [a, b]).length - 2 = A.length := by
    simp only [List.length_append, List.length_cons, List.length_nil]
    omega
  simp only [h1, if_false, h2]
  rw [List.take_left', List.drop_left']
  · simp
  · rfl
  · rfl

theorem toFixed_two (x : Double) (hpos : x.neg = false) :
    x.toFixed 2 = twoPlaces (x.scaledRound 2) := by
  unfold Double.toFixed twoPlaces
  simp only [hpos, Bool.false_eq_true, false_and, if_false, List.nil_append]
  generalize x.scaledRound 2 = n
  congr 1
  by_cases h2 : 100 ≤ n
  · have e1 := natToDecimal_step n (n / 10) rfl (by omega)
    have e2 := natToDecimal_step (n / 10) (n / 100) (by omega) (by omega)
    have hA := (natToDecimal_spec (n / 100)).2.1
    have hn : natToDecimal n = natToDecimal (n / 100) ++
        [digitChar (n / 10 % 10), digitChar (n % 10)] := by
      rw [e1, e2]
      simp
    rw [hn]
    exact split_last_two _ _ _ hA
  · have z2 : n / 100 = 0 := by omega
    rw [z2, natToDecimal_lt 0 (by norm_num)]
    by_cases h1 : 10 ≤ n
    · have e1 := natToDecimal_step n (n / 10) rfl (by omega)
      have e2 := natToDecimal_lt (n / 10) (by omega)
      have m1 : n / 10 % 10 = n / 10 := by omega
      rw [e1, e2, m1]
      rfl
    · have e1 := natToDecimal_lt n (by omega)
      have m1 : n / 10 % 10 = 0 := by omega
      have m0 : n % 10 = n := by omega
      rw [e1, m1, m0]
      rfl

/-- Dividing an integer below `2^53` by a power of two is exact in binary64. -/
theorem div_pow2_exact (bytes : Nat) (k : Nat) (h : bytes < 2 ^ 53) :
    ((Double.ofInt bytes).div (Double.ofInt ((2 ^ k : Nat) : Int))).neg = false ∧
    (((Double.ofInt bytes).div (Double.ofInt ((2 ^ k : Nat) : Int))).m : ℚ) *
      2 ^ ((Double.ofInt bytes).div (Double.ofInt ((2 ^ k : Nat) : Int))).e =
      (bytes : ℚ) / 2 ^ k := by
  have hb : ∀ m : Nat, Double.ofInt (m : Int) = ⟨false, m, 0⟩ := by
    intro m
    have : ¬ ((m : Int) < 0) := by omega
    simp [Double.ofInt, this]
  rw [hb, hb]
  simp only [Double.div, sub_self, bne_self_eq_false, true_and]
  have hv : ((bytes : ℕ) : ℚ) / ((2 ^ k : ℕ) : ℚ) = (bytes : ℚ) * 2 ^ (-(k : ℤ)) := by
    rw [div_eq_mul_inv, zpow_neg, zpow_natCast]
    push_cast
    rfl
  have e1 := roundToDouble_exact bytes (2 ^ k) 0 (by positivity) bytes (-(k : ℤ)) h hv
  simp only [zpow_zero, mul_one] at e1
  rw [e1]
  push_cast
  rfl

/-- The scaled size `(bytes / 2^k).toFixed(2)` for `2^k ≤ bytes < 2^53`: the two-place
notation of the integer nearest to `bytes / 2^k * 100`, which is at least 100. -/
theorem scaled_size (bytes k : Nat) (h : bytes < 2 ^ 53) (hk : 2 ^ k ≤ bytes) :
    ∃ n : Nat, 100 ≤ n ∧
      (n : ℚ) - 1 / 2 ≤ (bytes : ℚ) / 2 ^ k * 10 ^ 2 ∧
      (bytes : ℚ) / 2 ^ k * 10 ^ 2 < n + 1 / 2 ∧
      ((Double.ofInt bytes).div (Double.ofInt ((2 ^ k : Nat) : Int))).toFixed 2 =
        twoPlaces n := by
  obtain ⟨hneg, hval⟩ := div_pow2_exact bytes k h
  set x := (Double.ofInt bytes).div (Double.ofInt ((2 ^ k : Nat) : Int)) with hx
  have hn : x.scaledRound 2 = ⌊(bytes : ℚ) / 2 ^ k * 10 ^ 2 + 1 / 2⌋₊ := by
    rw [scaledRound_eq_floor, hval]
  have hq : (1 : ℚ) ≤ (bytes : ℚ) / 2 ^ k := by
    rw [le_div_iff₀ (by positivity)]
    exact_mod_cast (by simpa using hk)
  have hnonneg : (0 : ℚ) ≤ (bytes : ℚ) / 2 ^ k * 10 ^ 2 + 1 / 2 := by positivity
  refine ⟨x.scaledRound 2, ?_, ?_, ?_, toFixed_two x hneg⟩
  · rw [hn]
    apply Nat.le_floor
    push_cast
    nlinarith
  · rw [hn]
    have := Nat.floor_le hnonneg
    linarith
  · rw [hn]
    have := Nat.lt_floor_add_one ((bytes : ℚ) / 2 ^ k * 10 ^ 2 + 1 / 2)
    linarith

theorem suffix_two_unique (l : List Char) (a b c d : Char) (h1 : [a, b] <:+ l)
    (h2 : [c, d] <:+ l) : a = c ∧ b = d := by
  have h := List.suffix_of_suffix_length_le h1 h2 (by simp)
  have := h.eq_of_length (by simp)
  simpa using this

theorem toList_append_unit (s : String) (a b : Char) :
    [a, b] <:+ (s ++ String.mk [a, b]).toList := by
  simp only [String.toList, String.data_append]
  exact List.suffix_append _ _

/-- The four branches of `formatBytes` on an integer below `2^53`. -/
theorem formatBytes_cases (bytes : Nat) (h : bytes < 2 ^ 53) :
    (bytes < 1048576 ∧ formatBytes (.int bytes) = (JSNum.int bytes).toStr ++ " bytes" ∧
      ['e', 's'] <:+ (formatBytes (.int bytes)).toList) ∨
    (1048576 ≤ bytes ∧ bytes < 1073741824 ∧
      ['M', 'B'] <:+ (formatBytes (.int bytes)).toList ∧
      ∃ n : Nat, 100 ≤ n ∧ (n : ℚ) - 1 / 2 ≤ (bytes : ℚ) / 1048576 * 100 ∧
        (bytes : ℚ) / 1048576 * 100 < n + 1 / 2 ∧
        formatBytes (.int bytes) = twoPlaces n ++ "MB") ∨
    (1073741824 ≤ bytes ∧ bytes < 1099511627776 ∧
      ['G', 'B'] <:+ (formatBytes (.int bytes)).toList ∧
      ∃ n : Nat, 100 ≤ n ∧ (n : ℚ) - 1 / 2 ≤ (bytes : ℚ) / 1073741824 * 100 ∧
        (bytes : ℚ) / 1073741824 * 100 < n + 1 / 2 ∧
        formatBytes (.int bytes) = twoPlaces n ++ "GB") ∨
    (1099511627776 ≤ bytes ∧
      ['T', 'B'] <:+ (formatBytes (.int bytes)).toList ∧
      ∃ n : Nat, 100 ≤ n ∧ (n : ℚ) - 1 / 2 ≤ (bytes : ℚ) / 1099511627776 * 100 ∧
        (bytes : ℚ) / 1099511627776 * 100 < n + 1 / 2 ∧
        formatBytes (.int bytes) = twoPlaces n ++ "TB") := by
  have eT : (1099511627776 : Int) = ((2 ^ 40 : Nat) : Int) := by norm_num
  have eG : (1073741824 : Int) = ((2 ^ 30 : Nat) : Int) := by norm_num
  have eM : (1048576 : Int) = ((2 ^ 20 : Nat) : Int) := by norm_num
  by_cases hT : 1099511627776 ≤ bytes
  · right; right; right
    obtain ⟨n, hn, h1, h2, hfix⟩ := scaled_size bytes 40 h (by norm_num; exact hT)
    have hc : (1099511627776 : Int) ≤ (bytes : Int) := by exact_mod_cast hT
    have hs : formatBytes (.int bytes) = twoPlaces n ++ "TB" := by
      simp only [formatBytes, hc, if_true]
      rw [eT, hfix]
    refine ⟨hT, ?_, n, hn, ?_, ?_, hs⟩
    · rw [hs]; exact toList_append_unit _ 'T' 'B'
    · norm_num at h1 ⊢; linarith
    · norm_num at h2 ⊢; linarith
  · by_cases hG : 1073741824 ≤ bytes
    · right; right; left
      obtain ⟨n, hn, h1, h2, hfix⟩ := scaled_size bytes 30 h (by norm_num; exact hG)
      have hc : ¬ (1099511627776 : Int) ≤ (bytes : Int) := by exact_mod_cast hT
      have hc2 : (1073741824 : Int) ≤ (bytes : Int) := by exact_mod_cast hG
      have hs : formatBytes (.int bytes) = twoPlaces n ++ "GB" := by
        simp only [formatBytes, hc, hc2, if_true, if_false]
        rw [eG, hfix]
      refine ⟨hG, by omega, ?_, n, hn, ?_, ?_, hs⟩
      · rw [hs]; exact toList_append_unit _ 'G' 'B'
      · norm_num at h1 ⊢; linarith
      · norm_num at h2 ⊢; linarith
    · by_cases hM : 1048576 ≤ bytes
      · right; left
        obtain ⟨n, hn, h1, h2, hfix⟩ := scaled_size bytes 20 h (by norm_num; exact hM)
        have hc : ¬ (1099511627776 : Int) ≤ (bytes : Int) := by exact_mod_cast hT
        have hc2 : ¬ (1073741824 : Int) ≤ (bytes : Int) := by exact_mod_cast hG
        have hc3 : (1048576 : Int) ≤ (bytes : Int) := by exact_mod_cast hM
        have hs : formatBytes (.int bytes) = twoPlaces n ++ "MB" := by
          simp only [formatBytes, hc, hc2, hc3, if_true, if_false]
          rw [eM, hfix]
        refine ⟨hM, by omega, ?_, n, hn, ?_, ?_, hs⟩
        · rw [hs]; exact toList_append_unit _ 'M' 'B'
        · norm_num at h1 ⊢; linarith
        · norm_num at h2 ⊢; linarith
      · left
        have hc : ¬ (1099511627776 : Int) ≤ (bytes : Int) := by exact_mod_cast hT
        have hc2 : ¬ (1073741824 : Int) ≤ (bytes : Int) := by exact_mod_cast hG
        have hc3 : ¬ (1048576 : Int) ≤ (bytes : Int) := by exact_mod_cast hM
        have hs : formatBytes (.int bytes) = (JSNum.int bytes).toStr ++ " bytes" := by
          simp only [formatBytes, hc, hc2, hc3, if_false]
        refine ⟨by omega, hs, ?_⟩
        rw [hs]
        have : (JSNum.int bytes).toStr ++ " bytes" =
            ((JSNum.int bytes).toStr ++ " byt") ++ String.mk ['e', 's'] := by
          rw [String.append_assoc]
          rfl
        rw [this]
        exact toList_append_unit _ 'e' 's'

/-! ### Skipping text without digits; values of `JSNum.ofNat` -/

theorem matchAt_nondigit (c : Char) (cs : List Char) (hc : isDigit c = false) :
    matchAt bytesGroup bytesRest (c :: cs) = none := by
  simp [matchAt, bytesGroup, Regex.plus, Regex.run, hc]

theorem regexMatch_skip : ∀ (pre s : List Char), (∀ ch ∈ pre, isDigit ch = false) →
    regexMatch bytesGroup bytesRest (pre ++ s) = regexMatch bytesGroup bytesRest s
  | [], _, _ => rfl
  | c :: pre, s, h => by
    have hc : isDigit c = false := h c (List.mem_cons_self _ _)
    simp only [List.cons_append, regexMatch, matchAt_nondigit c _ hc]
    exact regexMatch_skip pre s (fun ch hch => h ch (List.mem_cons_of_mem _ hch))

theorem JSNum.ofNat_cases (v : Nat) :
    (∃ n : Nat, JSNum.ofNat v = .int n) ∨ JSNum.ofNat v = .inf false := by
  unfold JSNum.ofNat
  split
  · exact Or.inl ⟨_, rfl⟩
  · exact Or.inr rfl

/-! ### The claims -/

/-- C1. For every byte count below `2^50`, the string of `calculateCost` (safe-query) and the
`costEstimate` of `runDryRun` (run-query) are the decimal notation, with exactly four
decimal places, of the integer `n` nearest to `bytes / 1099511627776 * 5 * 10^4` (the upper
one on a tie): `bytes / 1099511627776 * 5` rounded to four places.  1 GiB gives `0.0049`. -/
theorem calculateCost_rounds_to_four_places (bytes : Nat) (h : bytes < 2 ^ 50) :
    (∃ n : Nat,
      (n : ℚ) - 1 / 2 ≤ (bytes : ℚ) / 1099511627776 * 5 * 10 ^ 4 ∧
      (bytes : ℚ) / 1099511627776 * 5 * 10 ^ 4 < n + 1 / 2 ∧
      calculateCost (.int bytes) = fourPlaces n ∧
      costEstimateOf (.int bytes) = fourPlaces n ∧
      ∀ (env : Env) (tempQuery : String),
        (runDryRun env tempQuery).2.bytesProcessed = .int bytes →
        (runDryRun env tempQuery).2.costEstimate = fourPlaces n) ∧
    calculateCost (.int 1073741824) = "0.0049" ∧
    costEstimateOf (.int 1073741824) = "0.0049" := by
  refine ⟨?_, by decide, by decide⟩
  obtain ⟨hneg, hval⟩ := cost_value_exact bytes h
  set x := ((Double.ofInt bytes).div (Double.ofInt 1099511627776)).mul (Double.ofInt 5) with hx
  have hfix : x.toFixed 4 = fourPlaces (x.scaledRound 4) := toFixed_four x hneg
  have hn : x.scaledRound 4 = ⌊(bytes : ℚ) / 1099511627776 * 5 * 10 ^ 4 + 1 / 2⌋₊ := by
    rw [scaledRound_eq_floor, hval]
  have hnonneg : (0 : ℚ) ≤ (bytes : ℚ) / 1099511627776 * 5 * 10 ^ 4 + 1 / 2 := by positivity
  have hcalc : calculateCost (.int bytes) = fourPlaces (x.scaledRound 4) := hfix
  have hcost : costEstimateOf (.int bytes) = fourPlaces (x.scaledRound 4) := hfix
  refine ⟨x.scaledRound 4, ?_, ?_, hcalc, hcost, ?_⟩
  · rw [hn]
    have := Nat.floor_le hnonneg
    linarith
  · rw [hn]
    have := Nat.lt_floor_add_one ((bytes : ℚ) / 1099511627776 * 5 * 10 ^ 4 + 1 / 2)
    linarith
  · intro env tempQuery hbytes
    have hall : (runDryRun env tempQuery).2.costEstimate =
        costEstimateOf (runDryRun env tempQuery).2.bytesProcessed := by
      unfold runDryRun
      simp only
      have h0 : costEstimateOf (.int 0) = "0.0000" := by decide
      split
      · exact h0.symm
      · split
        · exact h0.symm
        · exact h0.symm
        · rfl
    rw [hall, hbytes, hcost]

/-- C1 at 1 GiB. -/
theorem calculateCost_rounds_to_four_places_witness :
    calculateCost (.int 1073741824) = "0.0049" ∧ costEstimateOf (.int 1073741824) = "0.0049" :=
  (calculateCost_rounds_to_four_places 1073741824 (by norm_num)).2


/-- C2. When the estimate exceeds the ceiling and the operator's answer is not `y` or `Y`
(the test `answer.toLowerCase() !== 'y'` holds), safe-query prints the cancellation message
and exits with code 0 straight after the prompt: the run is exactly validation, dry run,
estimate, warning, prompt, cancellation, `exit(0)`, and no subprocess is spawned. -/
theorem safeQuery_decline_cancels (env : Env) (queryFile query out : String)
    (rest : List String) (bytes ceiling : Int)
    (hfile : env.existsSync queryFile = true)
    (hread : env.readFileSync queryFile = .ok query)
    (hdry : env.execSync dryRunCmd (some query) = .ok out)
    (hest : parseDryRun env out = some (.int bytes))
    (hceil : maxBytesArg rest = .int ceiling)
    (hover : ceiling < bytes)
    (hanswer : declines env.answer = true) :
    safeQuery (queryFile :: rest) env =
      ⟨[.log .validating, .execSync dryRunCmd (some query),
        .log (.estimate (.int bytes) (calculateCost (.int bytes))),
        .log (.exceedsLimit (.int ceiling)), .question "Continue anyway? (y/N): ",
        .log .cancelled, .exit 0], 0⟩ ∧
    (safeQuery (queryFile :: rest) env).exitCode = 0 ∧
    (safeQuery (queryFile :: rest) env).events.countP Event.isSpawn = 0 := by
  have h : safeQuery (queryFile :: rest) env =
      ⟨[.log .validating, .execSync dryRunCmd (some query),
        .log (.estimate (.int bytes) (calculateCost (.int bytes))),
        .log (.exceedsLimit (.int ceiling)), .question "Continue anyway? (y/N): ",
        .log .cancelled, .exit 0], 0⟩ := by
    simp [safeQuery, hfile, hread, hdry, hest, hceil, gateAndExecute, JSNum.gt, hover, hanswer]
  refine ⟨h, ?_, ?_⟩
  · rw [h]
  · rw [h]; rfl

/-- C2 at a concrete run: a 1 GiB estimate against the default ceiling, answer `n`. -/
theorem safeQuery_decline_cancels_witness :
    (safeQuery ["q.sql"] baseEnv).exitCode = 0 ∧
    (safeQuery ["q.sql"] baseEnv).events.countP Event.isSpawn = 0 :=
  (safeQuery_decline_cancels baseEnv "q.sql" "SELECT 1" "report" [] 1073741824 104857600
    (by decide) rfl rfl (by decide) (by decide) (by decide) (by decide)).2

/-- C3. When the estimate exceeds the ceiling and the operator confirms (the answer
lower-cases to `y`), safe-query spawns the execution subprocess exactly once, and its
`--maximum_bytes_billed` argument is the ceiling `maxBytes`, which differs from the
estimated byte count. -/
theorem safeQuery_confirm_executes_with_ceiling (env : Env) (queryFile query out : String)
    (rest : List String) (bytes ceiling : Int)
    (hfile : env.existsSync queryFile = true)
    (hread : env.readFileSync queryFile = .ok query)
    (hdry : env.execSync dryRunCmd (some query) = .ok out)
    (hest : parseDryRun env out = some (.int bytes))
    (hceil : maxBytesArg rest = .int ceiling)
    (hover : ceiling < bytes)
    (hanswer : declines env.answer = false) :
    (safeQuery (queryFile :: rest) env).events.filter Event.isSpawn =
      [.spawn "bq" ["query", "--maximum_bytes_billed=" ++ (JSNum.int ceiling).toStr,
        "--use_legacy_sql=false"]] ∧
    (safeQuery (queryFile :: rest) env).events.countP Event.isSpawn = 1 ∧
    (safeQuery (queryFile :: rest) env).events.countP Event.isPrompt = 1 ∧
    JSNum.int ceiling ≠ JSNum.int bytes := by
  have hne : JSNum.int ceiling ≠ JSNum.int bytes := by
    intro h
    injection h with h
    omega
  refine ⟨?_, ?_, ?_, hne⟩ <;>
    by_cases hc : env.closeCode = 0 <;>
    simp [safeQuery, hfile, hread, hdry, hest, hceil, gateAndExecute, JSNum.gt, hover, hanswer,
      executeBounded, hc, Event.isSpawn, Event.isPrompt, List.countP_cons]

/-- C3 at a concrete run: a 1 GiB estimate against the default ceiling, answer `Y`. -/
theorem safeQuery_confirm_executes_with_ceiling_witness :
    (safeQuery ["q.sql"] confirmingEnv).events.filter Event.isSpawn =
      [.spawn "bq" ["query", "--maximum_bytes_billed=104857600", "--use_legacy_sql=false"]] :=
  (safeQuery_confirm_executes_with_ceiling confirmingEnv "q.sql" "SELECT 1" "report" []
    1073741824 104857600
    (by decide) rfl rfl (by decide) (by decide) (by decide) (by decide)).1

/-- C4. When the estimated byte count is at most the ceiling, safe-query never shows the
confirmation prompt and goes straight from the estimate to the bounded execution: the
subprocess is spawned once with `--maximum_bytes_billed` equal to the ceiling. -/
theorem safeQuery_within_ceiling_no_prompt (env : Env) (queryFile query out : String)
    (rest : List String) (bytes ceiling : Int)
    (hfile : env.existsSync queryFile = true)
    (hread : env.readFileSync queryFile = .ok query)
    (hdry : env.execSync dryRunCmd (some query) = .ok out)
    (hest : parseDryRun env out = some (.int bytes))
    (hceil : maxBytesArg rest = .int ceiling)
    (hle : bytes ≤ ceiling) :
    (safeQuery (queryFile :: rest) env).events.countP Event.isPrompt = 0 ∧
    (safeQuery (queryFile :: rest) env).events.take 5 =
      [.log .validating, .execSync dryRunCmd (some query),
        .log (.estimate (.int bytes) (calculateCost (.int bytes))), .log .running,
        .spawn "bq" ["query", "--maximum_bytes_billed=" ++ (JSNum.int ceiling).toStr,
          "--use_legacy_sql=false"]] ∧
    (safeQuery (queryFile :: rest) env).events.countP Event.isSpawn = 1 := by
  have hnot : ¬ ceiling < bytes := by omega
  refine ⟨?_, ?_, ?_⟩ <;>
    by_cases hc : env.closeCode = 0 <;>
    simp [safeQuery, hfile, hread, hdry, hest, hceil, gateAndExecute, JSNum.gt, hnot,
      executeBounded, hc, Event.isSpawn, Event.isPrompt, List.countP_cons]

/-- C4 at a concrete run: a 1 GiB estimate against a ceiling of 2 GiB. -/
theorem safeQuery_within_ceiling_no_prompt_witness :
    (safeQuery ["q.sql", "2147483648"] baseEnv).events.countP Event.isPrompt = 0 :=
  (safeQuery_within_ceiling_no_prompt baseEnv "q.sql" "SELECT 1" "report" ["2147483648"]
    1073741824 2147483648
    (by decide) rfl rfl (by decide) (by decide) (by decide)).1

/-- C5, as stated, fails: on `9,007,199,254,740,993 bytes processed` the pattern matches
and the matched digits read 9007199254740993, but `parseInt` returns the nearest number,
so the estimator yields 9007199254740992. -/
theorem parseDryRun_rounds_large_count :
    regexMatch bytesGroup bytesRest "9,007,199,254,740,993 bytes processed".toList =
      some "9,007,199,254,740,993".toList ∧
    digitsValue 10 ("9,007,199,254,740,993".toList.filter fun ch => ch != ',') =
      9007199254740993 ∧
    parseDryRun textEnv "9,007,199,254,740,993 bytes processed" =
      some (.int 9007199254740992) := by
  decide

/-- C5, amended. When `JSON.parse` throws on the dry-run output and the output contains a
match of `(\d+(?:,\d{3})*)\s+bytes\s+processed`, the estimator succeeds: the byte count is
the Number value of the group of a match in that output with its commas removed, read as a
decimal integer; that is the integer itself whenever it is at most `2^53`.  An output that
contains `12,345,678 bytes processed` with no digit before it gives 12345678. -/
theorem parseDryRun_text_fallback (env : Env) (out : String)
    (hjson : env.jsonParse out = none)
    (hmatch : ∃ c, ContainsBytesProcessed out.toList c) :
    (∃ c, ContainsBytesProcessed out.toList c ∧
      parseDryRun env out =
        some (JSNum.ofNat (digitsValue 10 (c.filter fun ch => ch != ','))) ∧
      (digitsValue 10 (c.filter fun ch => ch != ',') ≤ 2 ^ 53 →
        parseDryRun env out = some (.int (digitsValue 10 (c.filter fun ch => ch != ','))))) ∧
    (∀ pre post : List Char, (∀ ch ∈ pre, isDigit ch = false) →
      out.toList = pre ++ "12,345,678 bytes processed".toList ++ post →
      parseDryRun env out = some (.int 12345678)) := by
  constructor
  · obtain ⟨c0, pre, t, post, hs, hg, hr⟩ := hmatch
    have hsome := regexMatch_complete bytesGroup bytesRest c0 t post hg hr pre
    rw [← hs] at hsome
    obtain ⟨c, hc⟩ := Option.isSome_iff_exists.1 hsome
    have hp := parseDryRun_of_match env out c (Or.inl hjson) hc
    refine ⟨c, regexMatch_sound bytesGroup bytesRest _ _ hc, hp, ?_⟩
    intro hle
    rw [hp, JSNum.ofNat_of_le _ hle]
  · intro pre post hpre hout
    have hg : bytesGroup.Matches "12,345,678".toList := by
      have h : [] ∈ bytesGroup.run "12,345,678".toList := by decide
      obtain ⟨u, hu, hm⟩ := Regex.run_sound _ _ _ h
      simp only [List.append_nil] at hu
      rw [hu]
      exact hm
    have hm : regexMatch bytesGroup bytesRest out.toList = some "12,345,678".toList := by
      rw [hout, List.append_assoc, regexMatch_skip pre _ hpre]
      exact regexMatch_at_start "12,345,678".toList " bytes processed".toList post hg
        bytesRest_suffix
    rw [parseDryRun_of_match env out _ (Or.inl hjson) hm]
    decide

/-- C5 amended, at a concrete output: free text around `12,345,678 bytes processed`. -/
theorem parseDryRun_text_fallback_witness :
    parseDryRun textEnv "Dry run: 12,345,678 bytes processed." = some (.int 12345678) :=
  (parseDryRun_text_fallback textEnv "Dry run: 12,345,678 bytes processed." rfl
    ⟨"12,345,678".toList, regexMatch_sound bytesGroup bytesRest _ _ (by decide)⟩).2
    "Dry run: ".toList ".".toList (by decide) (by decide)

/-- C6. When the dry-run subprocess of safe-query exits non-zero, or its output neither
parses as JSON nor contains a match of the `bytes processed` pattern, the run ends with
`process.exit(1)`: exit code 1, no confirmation prompt and no execution subprocess. -/
theorem safeQuery_estimation_failure_exits (env : Env) (queryFile query : String)
    (rest : List String)
    (hfile : env.existsSync queryFile = true)
    (hread : env.readFileSync queryFile = .ok query)
    (hfail : (∃ err, env.execSync dryRunCmd (some query) = .error err) ∨
      (∃ out, env.execSync dryRunCmd (some query) = .ok out ∧ env.jsonParse out = none ∧
        ¬ ∃ c, ContainsBytesProcessed out.toList c)) :
    (safeQuery (queryFile :: rest) env).exitCode = 1 ∧
    (safeQuery (queryFile :: rest) env).events.getLast? = some (.exit 1) ∧
    (safeQuery (queryFile :: rest) env).events.countP Event.isPrompt = 0 ∧
    (safeQuery (queryFile :: rest) env).events.countP Event.isSpawn = 0 := by
  rcases hfail with ⟨err, herr⟩ | ⟨out, hout, hjson, hno⟩
  · simp [safeQuery, hfile, hread, herr, List.countP_cons, Event.isPrompt, Event.isSpawn]
  · have hnone : regexMatch bytesGroup bytesRest out.toList = none := by
      cases hm : regexMatch bytesGroup bytesRest out.toList with
      | none => rfl
      | some c => exact absurd ⟨c, regexMatch_sound bytesGroup bytesRest _ _ hm⟩ hno
    have hnone' : regexMatch bytesGroup bytesRest out.data = none := hnone
    have hparse : parseDryRun env out = none := by
      simp [parseDryRun, hjson, hnone']
    simp [safeQuery, hfile, hread, hout, hparse, List.countP_cons, Event.isPrompt,
      Event.isSpawn]

/-- C6 at a concrete run: the dry-run subprocess exits with status 1. -/
theorem safeQuery_estimation_failure_exits_witness :
    (safeQuery ["q.sql"] failingDryRunEnv).exitCode = 1 ∧
    (safeQuery ["q.sql"] failingDryRunEnv).events.countP Event.isSpawn = 0 :=
  have h := safeQuery_estimation_failure_exits failingDryRunEnv "q.sql" "SELECT 1" []
    (by decide) rfl (Or.inl ⟨_, rfl⟩)
  ⟨h.1, h.2.2.2⟩

/-- C7, as stated, fails: with a dry-run subprocess that exits with status 1, run-query logs
`Dry run failed, proceeding anyway...` and then invokes the real `bq query` command. -/
theorem runQuery_failed_dry_run_still_executes :
    Event.log .dryRunFailed ∈ (runQuery ["q.sql"] failingDryRunEnv).events ∧
    Event.execSync (queryCmd (.int 15000000000) "temp_universal_0.sql") none ∈
      (runQuery ["q.sql"] failingDryRunEnv).events := by
  decide

/-- C7, amended. When the dry-run subprocess of run-query exits non-zero, or `JSON.parse`
throws on its output or returns `null`, `runDryRun` logs the failure and returns the zero
estimate (`bytesProcessed` 0, cost `0.0000`).  Without `--dry-run` the workflow then goes on
to invoke the real command, capped at `options.limit`, straight after the failure message;
with `--dry-run` it stops after the dry run. -/
theorem runQuery_dry_run_failure_proceeds (env : Env) (args : List String)
    (queryFile : String) (options : Options) (query : String) (dirEvents : List Event)
    (hprep : Prepared env args queryFile options query dirEvents)
    (hfail : (∃ err, env.execSync (dryCmd (tempQueryName env)) none = .error err) ∨
      (∃ out, env.execSync (dryCmd (tempQueryName env)) none = .ok out ∧
        (env.jsonParse out = none ∨ env.jsonParse out = some .null))) :
    (runDryRun env (tempQueryName env)).2.bytesProcessed = .int 0 ∧
    (runDryRun env (tempQueryName env)).2.costEstimate = "0.0000" ∧
    (options.dryRun = false → ∃ post, (runQuery args env).events =
      dirEvents ++ [.log (.banner queryFile (outputFileOf env queryFile options) options.limit),
        .writeFile (tempQueryName env) query, .log .dryRunStart,
        .execSync (dryCmd (tempQueryName env)) none, .log .dryRunFailed,
        .log .runningBigQuery,
        .execSync (queryCmd options.limit (tempQueryName env)) none] ++ post) ∧
    (options.dryRun = true → (runQuery args env).events =
      dirEvents ++ [.log (.banner queryFile (outputFileOf env queryFile options) options.limit),
        .writeFile (tempQueryName env) query, .log .dryRunStart,
        .execSync (dryCmd (tempQueryName env)) none, .log .dryRunFailed,
        .log .dryRunCompleted, .unlink (tempQueryName env)]) := by
  have hdry : runDryRun env (tempQueryName env) =
      ([.log .dryRunStart, .execSync (dryCmd (tempQueryName env)) none, .log .dryRunFailed],
        { bytesProcessed := .int 0, costEstimate := "0.0000" }) := by
    rcases hfail with ⟨err, herr⟩ | ⟨out, hout, hj | hj⟩
    · simp [runDryRun, herr]
    · simp [runDryRun, hout, hj]
    · simp [runDryRun, hout, hj]
  refine ⟨by rw [hdry], by rw [hdry], ?_, ?_⟩
  · intro hreal
    rw [runQuery_prepared env args queryFile options query dirEvents hprep]
    simp only [hreal, Bool.false_eq_true, if_false]
    obtain ⟨post, hpost⟩ := executeQuery_starts env options.limit
      (outputFileOf env queryFile options)
      (resolvePath env (outputFileOf env queryFile options)) (tempQueryName env)
      (preparedEvents env queryFile options query dirEvents)
    refine ⟨post, ?_⟩
    rw [hpost, preparedEvents, hdry]
    simp
  · intro hdryOnly
    rw [runQuery_prepared env args queryFile options query dirEvents hprep]
    simp [hdryOnly, preparedEvents, hdry]

/-- C7 amended, at a concrete run: the dry-run subprocess exits with status 1. -/
theorem runQuery_dry_run_failure_proceeds_witness :
    (runDryRun failingDryRunEnv (tempQueryName failingDryRunEnv)).2.bytesProcessed = .int 0 :=
  (runQuery_dry_run_failure_proceeds failingDryRunEnv ["q.sql"] "q.sql" defaultOptions
    "SELECT 1" [] (baseEnv_prepared failingDryRunEnv rfl rfl rfl) (Or.inl ⟨_, rfl⟩)).1

/-- C8, as stated, fails: a structured report whose `totalBytesProcessed` is `"-5"` gives the
byte count -5, and one whose field is `"abc"` gives `NaN`; both pass the gate without a
prompt and the execution subprocess is spawned. -/
theorem parseDryRun_unchecked_count :
    parseDryRun negativeEnv "report" = some (.int (-5)) ∧
    (safeQuery ["q.sql"] negativeEnv).events.countP Event.isSpawn = 1 ∧
    (safeQuery ["q.sql"] negativeEnv).events.countP Event.isPrompt = 0 ∧
    parseDryRun notANumberEnv "report" = some .nan ∧
    (safeQuery ["q.sql"] notANumberEnv).events.countP Event.isSpawn = 1 ∧
    (safeQuery ["q.sql"] notANumberEnv).events.countP Event.isPrompt = 0 := by
  decide

/-- C8, amended. For every dry-run output the estimator of safe-query either fails or yields
a number.  On the text fallback (when `JSON.parse` throws or returns `null`) the number is
never negative and never `NaN`: it is a non-negative integer, or `Infinity` when the digits
exceed the binary64 range.  On the structured path it is
`parseInt(totalBytesProcessed || 0)`, passed on unchecked: it is a non-negative integer
when the field is missing or falsy (0), a non-negative integer up to `2^53`, or a non-empty
string of decimal digits that reads at most `2^53`. -/
theorem parseDryRun_count_cases (env : Env) (out : String) :
    ((env.jsonParse out = none ∨ env.jsonParse out = some .null) →
      parseDryRun env out = none ∨ (∃ n : Nat, parseDryRun env out = some (.int n)) ∨
        parseDryRun env out = some (.inf false)) ∧
    (∀ result, env.jsonParse out = some result → result ≠ .null →
      parseDryRun env out = some (totalBytesProcessed result) ∧
      (Json.truthy (result.getProp "totalBytesProcessed") = false →
        totalBytesProcessed result = .int 0) ∧
      (∀ n : Nat, n ≤ 2 ^ 53 → result.getProp "totalBytesProcessed" = some (.num n) →
        totalBytesProcessed result = .int n) ∧
      (∀ s : String, result.getProp "totalBytesProcessed" = some (.str s) → s.toList ≠ [] →
        (∀ c ∈ s.toList, isDigit c = true) → digitsValue 10 s.toList ≤ 2 ^ 53 →
        totalBytesProcessed result = .int (digitsValue 10 s.toList))) := by
  constructor
  · intro hjson
    cases hm : regexMatch bytesGroup bytesRest out.toList with
    | none =>
      left
      have hm' : regexMatch bytesGroup bytesRest out.data = none := hm
      rcases hjson with h | h <;> simp [parseDryRun, h, hm']
    | some c =>
      right
      rw [parseDryRun_of_match env out c hjson hm]
      rcases JSNum.ofNat_cases (digitsValue 10 (c.filter fun ch => ch != ',')) with
        ⟨n, hn⟩ | hinf
      · exact Or.inl ⟨n, by rw [hn]⟩
      · exact Or.inr (by rw [hinf])
  · intro result hres hnull
    refine ⟨?_, ?_, ?_, ?_⟩
    · cases result <;> simp_all [parseDryRun]
    · intro hfalsy
      simp only [totalBytesProcessed, hfalsy, Bool.false_eq_true, if_false]
      exact parseInt_toStr_nat 0 (by norm_num)
    · intro n hle hn
      by_cases h0 : n = 0
      · subst h0
        simp only [totalBytesProcessed, hn, Json.truthy]
        simpa using parseInt_toStr_nat 0 (by norm_num)
      · have ht : Json.truthy (some (Json.num (n : Int))) = true := by
          simp [Json.truthy, h0]
        simp only [totalBytesProcessed, hn, ht, if_true, Option.getD_some, Json.toStr]
        exact parseInt_toStr_nat n hle
    · intro s hs hne hall hle
      have hsne : s ≠ "" := by
        intro h
        apply hne
        rw [h]
        rfl
      have ht : Json.truthy (some (Json.str s)) = true := by
        simp [Json.truthy, hsne]
      simp only [totalBytesProcessed, hs, ht, if_true, Option.getD_some, Json.toStr]
      have := parseInt_digits s.toList hne hall
      rw [JSNum.ofNat_of_le _ hle] at this
      simpa using this

/-- C9, as stated, fails: an execution subprocess that exits with status 1 and whose stdout
is a single newline (not empty) is reported as a BigQuery error, and its stdout is not
written to the output file. -/
theorem runQuery_blank_stdout_not_saved :
    Event.log (.bigQueryError "Command failed") ∈ (runQuery ["q.sql"] blankOutputEnv).events ∧
    Event.log .completedWithWarnings ∉ (runQuery ["q.sql"] blankOutputEnv).events ∧
    Event.writeFile "/work/query_2024-01-01_000000.csv" "\n" ∉
      (runQuery ["q.sql"] blankOutputEnv).events ∧
    ((runQuery ["q.sql"] blankOutputEnv).events.drop 5).countP Event.isWrite = 0 := by
  decide

/-- C9, amended. When the execution subprocess of run-query exits non-zero and its stdout
holds a character that is not white space, the outcome is a warning and not a failure: the
run logs `Query completed with warnings...`, writes the captured stdout unchanged to the
output file, shows stderr unless it mentions `Waiting on bqjob`, removes the temporary file
and ends with exit code 0 (the output file write is assumed to succeed). -/
theorem runQuery_soft_failure_saves_stdout (env : Env) (args : List String)
    (queryFile : String) (options : Options) (query : String) (dirEvents : List Event)
    (execError : ExecError)
    (hprep : Prepared env args queryFile options query dirEvents)
    (hreal : options.dryRun = false)
    (hexec : env.execSync (queryCmd options.limit (tempQueryName env)) none = .error execError)
    (hout : ∃ c ∈ execError.stdout.toList, isWhiteSpace c = false)
    (hwrite : env.writeFileSync (resolvePath env (outputFileOf env queryFile options))
      execError.stdout = .ok ()) :
    runQuery args env =
      ⟨preparedEvents env queryFile options query dirEvents ++
        [.log .runningBigQuery,
          .execSync (queryCmd options.limit (tempQueryName env)) none,
          .log .completedWithWarnings,
          .writeFile (resolvePath env (outputFileOf env queryFile options)) execError.stdout,
          .log (.resultsSaved (outputFileOf env queryFile options))] ++
        (if execError.stderr != "" && !includes execError.stderr "Waiting on bqjob" then
          [.log (.errorDetails execError.stderr)] else []) ++
        [.unlink (tempQueryName env)], 0⟩ := by
  have htrim : trim execError.stdout ≠ "" := by
    intro h
    obtain ⟨c, hc, hws⟩ := hout
    rw [(trim_eq_empty_iff _).1 h c hc] at hws
    exact absurd hws (by simp)
  have hne : execError.stdout ≠ "" := by
    intro h
    obtain ⟨c, hc, -⟩ := hout
    rw [h] at hc
    simp at hc
  rw [runQuery_prepared env args queryFile options query dirEvents hprep]
  simp only [hreal, Bool.false_eq_true, if_false, executeQuery, hexec]
  split
  · simp_all
    split <;> simp
  · simp_all

/-- C9 amended, at a concrete run: status 1 with one CSV row on stdout. -/
theorem runQuery_soft_failure_saves_stdout_witness :
    (runQuery ["q.sql"] softFailEnv).exitCode = 0 ∧
    Event.writeFile "/work/query_2024-01-01_000000.csv" "a\n1\n" ∈
      (runQuery ["q.sql"] softFailEnv).events := by
  have h := runQuery_soft_failure_saves_stdout softFailEnv ["q.sql"] "q.sql" defaultOptions
    "SELECT 1" [] _ (baseEnv_prepared softFailEnv rfl rfl rfl) rfl rfl ⟨'a', by decide⟩ rfl
  rw [h]
  decide

/-- C10, as stated, fails: an execution subprocess that exits with status 1 and empty stdout
leaves run-query with exit code 0; the status 1 is not the exit code of the script, no
`process.exit` happens, and stderr is not printed. -/
theorem runQuery_hard_failure_exits_zero :
    (runQuery ["q.sql"] hardFailEnv).exitCode = 0 ∧
    Event.exit 1 ∉ (runQuery ["q.sql"] hardFailEnv).events ∧
    Event.log (.errorDetails "Access Denied") ∉ (runQuery ["q.sql"] hardFailEnv).events := by
  decide

/-- C10, amended. When the execution subprocess of run-query exits non-zero with empty
stdout, the outcome is a reported error: the run logs `BigQuery Error:` with the message of
the error, writes no output file, removes the temporary file, and the script ends normally
with exit code 0. -/
theorem runQuery_hard_failure_reports (env : Env) (args : List String)
    (queryFile : String) (options : Options) (query : String) (dirEvents : List Event)
    (execError : ExecError)
    (hprep : Prepared env args queryFile options query dirEvents)
    (hreal : options.dryRun = false)
    (hexec : env.execSync (queryCmd options.limit (tempQueryName env)) none = .error execError)
    (hout : execError.stdout = "") :
    runQuery args env =
      ⟨preparedEvents env queryFile options query dirEvents ++
        [.log .runningBigQuery,
          .execSync (queryCmd options.limit (tempQueryName env)) none,
          .log (.bigQueryError execError.message), .unlink (tempQueryName env)], 0⟩ ∧
    (runQuery args env).exitCode = 0 ∧
    ((runQuery args env).events.drop
      (preparedEvents env queryFile options query dirEvents).length).countP Event.isWrite = 0 := by
  have h : runQuery args env =
      ⟨preparedEvents env queryFile options query dirEvents ++
        [.log .runningBigQuery,
          .execSync (queryCmd options.limit (tempQueryName env)) none,
          .log (.bigQueryError execError.message), .unlink (tempQueryName env)], 0⟩ := by
    rw [runQuery_prepared env args queryFile options query dirEvents hprep]
    simp [hreal, executeQuery, hexec, hout]
  refine ⟨h, by rw [h], ?_⟩
  rw [h]
  simp [List.countP_cons, Event.isWrite]

/-- C10 amended, at a concrete run: status 1 with empty stdout. -/
theorem runQuery_hard_failure_reports_witness :
    (runQuery ["q.sql"] hardFailEnv).exitCode = 0 :=
  (runQuery_hard_failure_reports hardFailEnv ["q.sql"] "q.sql" defaultOptions "SELECT 1" [] _
    (baseEnv_prepared hardFailEnv rfl rfl rfl) rfl rfl rfl).2.1

/-- C11. When a run of safe-query reaches the bounded execution (the estimate is within the
ceiling, or the operator confirmed) and the subprocess closes with exit code `c`: for
`c = 0` the run logs `Query completed` as its last effect, calls `process.exit` nowhere and
ends with exit code 0; for `c ≠ 0` it logs the failure and ends with `process.exit(c)`, so
the exit code of the script is exactly `c`. -/
theorem safeQuery_close_code (env : Env) (queryFile query out : String)
    (rest : List String) (bytesProcessed : JSNum)
    (hfile : env.existsSync queryFile = true)
    (hread : env.readFileSync queryFile = .ok query)
    (hdry : env.execSync dryRunCmd (some query) = .ok out)
    (hest : parseDryRun env out = some bytesProcessed)
    (hgo : bytesProcessed.gt (maxBytesArg rest) = false ∨ declines env.answer = false) :
    (env.closeCode = 0 →
      (safeQuery (queryFile :: rest) env).exitCode = 0 ∧
      (safeQuery (queryFile :: rest) env).events.getLast? = some (.log .completed) ∧
      ∀ c, Event.exit c ∉ (safeQuery (queryFile :: rest) env).events) ∧
    (env.closeCode ≠ 0 →
      (safeQuery (queryFile :: rest) env).exitCode = env.closeCode ∧
      (safeQuery (queryFile :: rest) env).events.getLast? = some (.exit env.closeCode) ∧
      Event.log (.failed env.closeCode) ∈ (safeQuery (queryFile :: rest) env).events) := by
  constructor
  · intro hc
    by_cases hgt : bytesProcessed.gt (maxBytesArg rest) = true
    · have hans : declines env.answer = false := by
        rcases hgo with h | h
        · rw [h] at hgt; exact absurd hgt (by simp)
        · exact h
      simp [safeQuery, hfile, hread, hdry, hest, gateAndExecute, hgt, hans, executeBounded, hc]
    · simp [safeQuery, hfile, hread, hdry, hest, gateAndExecute, hgt, executeBounded, hc]
  · intro hc
    by_cases hgt : bytesProcessed.gt (maxBytesArg rest) = true
    · have hans : declines env.answer = false := by
        rcases hgo with h | h
        · rw [h] at hgt; exact absurd hgt (by simp)
        · exact h
      simp [safeQuery, hfile, hread, hdry, hest, gateAndExecute, hgt, hans, executeBounded, hc]
    · simp [safeQuery, hfile, hread, hdry, hest, gateAndExecute, hgt, executeBounded, hc]

/-- C11 at a concrete run: the confirmed execution closes with exit code 2. -/
theorem safeQuery_close_code_witness :
    (safeQuery ["q.sql"] closeFailEnv).exitCode = 2 :=
  ((safeQuery_close_code closeFailEnv "q.sql" "SELECT 1" "report" [] (.int 1073741824)
    (by decide) rfl rfl (by decide) (Or.inr (by decide))).2 (by decide)).1

/-- The value 0 is falsy in `parseInt(value) || default`: `max_bytes` 0 leaves the ceiling
of safe-query at 104857600 and `--limit 0` leaves the limit of run-query at 15000000000,
where the usage text `--limit <bytes>  Set byte limit` names the given value as the limit. -/
theorem zero_ceiling_falls_back_to_default :
    maxBytesArg ["0"] = .int 104857600 ∧
    (safeQuery ["q.sql", "0"] confirmingEnv).events.filter Event.isSpawn =
      [.spawn "bq" ["query", "--maximum_bytes_billed=104857600", "--use_legacy_sql=false"]] ∧
    (parseOptions ["--limit", "0"] defaultOptions).limit = .int 15000000000 ∧
    Event.execSync (queryCmd (.int 15000000000) "temp_universal_0.sql") none ∈
      (runQuery ["q.sql", "--limit", "0"] baseEnv).events := by
  decide

/-- C12, as stated, fails: the ceiling is a binary64 number, so `max_bytes` and `--limit`
given as 9007199254740993 are read as 9007199254740992, and that is the value passed as
`--maximum_bytes_billed`. -/
theorem ceiling_rounds_above_safe_range :
    maxBytesArg ["9007199254740993"] = .int 9007199254740992 ∧
    (safeQuery ["q.sql", "9007199254740993"] baseEnv).events.filter Event.isSpawn =
      [.spawn "bq" ["query", "--maximum_bytes_billed=9007199254740992",
        "--use_legacy_sql=false"]] ∧
    (parseOptions ["--limit", "9007199254740993"] defaultOptions).limit =
      .int 9007199254740992 ∧
    Event.execSync ("bq query --use_legacy_sql=false --format=csv " ++
        "--maximum_bytes_billed=9007199254740992 < temp_universal_0.sql") none ∈
      (runQuery ["q.sql", "--limit", "9007199254740993"] baseEnv).events := by
  decide

/-- C12, amended. The ceiling is 104857600 in safe-query when no `max_bytes` argument is
given and 15000000000 in run-query when no `--limit` appears; for every integer `n` with
`0 < n ≤ 2^53` given in decimal as `max_bytes`, or as the value of a `--limit` that no
later `--limit` follows, the ceiling is `n` and it prints as the decimal digits of `n`.
That ceiling is the value of every `--maximum_bytes_billed` the scripts pass: each `spawn`
of safe-query and each execution command of run-query carries it. -/
theorem ceiling_default_and_override (n : Nat) (hn : 0 < n) (hle : n ≤ 2 ^ 53) :
    maxBytesArg [] = .int 104857600 ∧
    (∀ rest, "--limit" ∉ rest → (parseOptions rest defaultOptions).limit = .int 15000000000) ∧
    (∀ rest, maxBytesArg (String.mk (natToDecimal n) :: rest) = .int n) ∧
    (∀ rest, "--limit" ∉ rest →
      (parseOptions ("--limit" :: String.mk (natToDecimal n) :: rest) defaultOptions).limit =
        .int n) ∧
    (JSNum.int n).toStr = String.mk (natToDecimal n) ∧
    (∀ (env : Env) (queryFile : String) (rest : List String),
      (safeQuery (queryFile :: rest) env).events.filter Event.isSpawn = [] ∨
      (safeQuery (queryFile :: rest) env).events.filter Event.isSpawn =
        [.spawn "bq" ["query", "--maximum_bytes_billed=" ++ (maxBytesArg rest).toStr,
          "--use_legacy_sql=false"]]) ∧
    (∀ (env : Env) (args : List String) (queryFile : String) (options : Options),
      parseArgs args = some (queryFile, options) →
      (runQuery args env).events.filter Event.isExec = [] ∨
      (runQuery args env).events.filter Event.isExec =
        [.execSync (dryCmd (tempQueryName env)) none] ∨
      (runQuery args env).events.filter Event.isExec =
        [.execSync (dryCmd (tempQueryName env)) none,
          .execSync (queryCmd options.limit (tempQueryName env)) none]) := by
  have hstr := toStr_nat n hle
  have hparse : parseInt (String.mk (natToDecimal n)) = .int n := by
    rw [← hstr]
    exact parseInt_toStr_nat n hle
  have htruthy : (JSNum.int (n : Int)).truthy = true := by
    simp [JSNum.truthy]; omega
  refine ⟨by decide, ?_, ?_, ?_, hstr, safeQuery_spawn_filter, ?_⟩
  · intro rest h
    rw [parseOptions_limit rest _ h]
    rfl
  · intro rest
    simp [maxBytesArg, hparse, htruthy]
  · intro rest h
    rw [parseOptions]
    simp only [if_true]
    rw [parseOptions_limit rest _ h]
    simp [parseIntOr, hparse, htruthy]
  · intro env args queryFile options h
    rcases runQuery_exec_filter env args queryFile options h with h1 | h1 | ⟨-, h1⟩
    · exact Or.inl h1
    · exact Or.inr (Or.inl h1)
    · exact Or.inr (Or.inr h1)

/-- C12 amended, at the ceiling 1 GiB. -/
theorem ceiling_default_and_override_witness :
    maxBytesArg ["1073741824"] = .int 1073741824 :=
  (ceiling_default_and_override 1073741824 (by decide) (by norm_num)).2.2.1 []

/-- C13. A run of run-query whose arguments do not contain `--dry-run`, once it has written
the temporary file, performs exactly two subprocess calls whatever the estimate is: the dry
run and then, once, the real command with `--maximum_bytes_billed` set to `options.limit`;
it never shows a prompt. -/
theorem runQuery_executes_once_without_prompt (env : Env) (args : List String)
    (queryFile : String) (options : Options) (query : String) (dirEvents : List Event)
    (hprep : Prepared env args queryFile options query dirEvents)
    (hno : "--dry-run" ∉ args) :
    (runQuery args env).events.filter Event.isExec =
      [.execSync (dryCmd (tempQueryName env)) none,
        .execSync ("bq query --use_legacy_sql=false --format=csv --maximum_bytes_billed=" ++
          options.limit.toStr ++ " < " ++ tempQueryName env) none] ∧
    (runQuery args env).events.countP Event.isPrompt = 0 := by
  have hreal : options.dryRun = false := parseArgs_dryRun args queryFile options hprep.parsed hno
  obtain ⟨h1, h2⟩ := preparedEvents_filters env args queryFile options query dirEvents hprep
  rw [runQuery_prepared env args queryFile options query dirEvents hprep]
  simp only [hreal, Bool.false_eq_true, if_false]
  obtain ⟨e1, e2⟩ := executeQuery_filters env options.limit (outputFileOf env queryFile options)
    (resolvePath env (outputFileOf env queryFile options)) (tempQueryName env)
    (preparedEvents env queryFile options query dirEvents)
  rw [e1, e2, h1, h2]
  exact ⟨rfl, rfl⟩

/-- C13 at a concrete run: a 1 GiB estimate with the default limit. -/
theorem runQuery_executes_once_without_prompt_witness :
    (runQuery ["q.sql"] baseEnv).events.countP Event.isPrompt = 0 :=
  (runQuery_executes_once_without_prompt baseEnv ["q.sql"] "q.sql" defaultOptions "SELECT 1" []
    (baseEnv_prepared baseEnv rfl rfl rfl) (by decide)).2

/-- C14, as stated, fails: in `run-query.js q.sql --limit --dry-run` the argument `--dry-run`
is taken as the value of `--limit`, the dry-run flag stays off, the real command is
invoked and the output file is written. -/
theorem dry_run_taken_as_limit_value :
    (parseOptions ["--limit", "--dry-run"] defaultOptions).dryRun = false ∧
    Event.execSync (queryCmd (.int 15000000000) "temp_universal_0.sql") none ∈
      (runQuery ["q.sql", "--limit", "--dry-run"] baseEnv).events ∧
    Event.writeFile "/work/query_2024-01-01_000000.csv" "a\n1\n" ∈
      (runQuery ["q.sql", "--limit", "--dry-run"] baseEnv).events := by
  decide

/-- C14, amended. Whenever the option loop of run-query reads `--dry-run` as an option (it
is not taken as the value of a preceding `--limit`, `--output` or `--preview`), so that
`options.dryRun` is set, the real execution command is never invoked and no file but the
temporary SQL file is written, for every dry-run result: the only subprocess is the dry
run, and a run that gets as far as the dry run ends right after it with the cleanup. -/
theorem runQuery_dry_run_only (env : Env) (args : List String) (queryFile : String)
    (options : Options)
    (hparse : parseArgs args = some (queryFile, options))
    (hdry : options.dryRun = true) :
    ((runQuery args env).events.filter Event.isExec = [] ∨
      (runQuery args env).events.filter Event.isExec =
        [.execSync (dryCmd (tempQueryName env)) none]) ∧
    ((runQuery args env).events.filter Event.isWrite = [] ∨
      ∃ query, (runQuery args env).events.filter Event.isWrite =
          [.writeFile (tempQueryName env) query] ∨
        (runQuery args env).events.filter Event.isWrite =
          [.writeFileFailed (tempQueryName env) query]) ∧
    (∀ query dirEvents, Prepared env args queryFile options query dirEvents →
      runQuery args env = ⟨preparedEvents env queryFile options query dirEvents ++
        [.log .dryRunCompleted, .unlink (tempQueryName env)], 0⟩) := by
  refine ⟨?_, ?_, ?_⟩
  · rcases runQuery_exec_filter env args queryFile options hparse with h | h | ⟨h, -⟩
    · exact Or.inl h
    · exact Or.inr h
    · rw [h] at hdry
      exact absurd hdry (by simp)
  · obtain ⟨m, hm⟩ := runDryRun_events env (tempQueryName env)
    simp only [runQuery, hparse, hdry, if_true, scriptError]
    split
    · simp [Event.isWrite, List.filter_cons]
    · split
      · simp [Event.isWrite, List.filter_cons]
      · rename_i evs hdir
        rcases ensureOutputDir_events env _ evs hdir with rfl | rfl
        all_goals
          repeat' split
          all_goals simp_all [Event.isWrite, List.filter_cons, List.filter_append]
  · intro query dirEvents hprep
    rw [runQuery_prepared env args queryFile options query dirEvents hprep]
    simp [hdry]

/-- C14 amended, at a concrete run: `--dry-run` after `--limit 5`. -/
theorem runQuery_dry_run_only_witness :
    (runQuery ["q.sql", "--limit", "5", "--dry-run"] baseEnv).events.filter Event.isExec = [] ∨
    (runQuery ["q.sql", "--limit", "5", "--dry-run"] baseEnv).events.filter Event.isExec =
      [.execSync (dryCmd (tempQueryName baseEnv)) none] :=
  (runQuery_dry_run_only baseEnv ["q.sql", "--limit", "5", "--dry-run"] "q.sql"
    { defaultOptions with limit := .int 5, dryRun := true } rfl rfl).1

/-- C15, the failing run. The execution subprocess of run-query exits with status 1 after
printing rows and the output file cannot be written: the `writeFileSync` inside the `catch`
block throws, the outer `catch` logs the script error and calls `process.exit(1)`, and the
temporary file that was written is never deleted. -/
theorem runQuery_script_error_leaves_temp_file :
    Event.writeFile "temp_universal_0.sql" "SELECT 1" ∈
      (runQuery ["q.sql"] outputWriteFailsEnv).events ∧
    Event.writeFileFailed "/work/query_2024-01-01_000000.csv" "a\n1\n" ∈
      (runQuery ["q.sql"] outputWriteFailsEnv).events ∧
    (runQuery ["q.sql"] outputWriteFailsEnv).events.countP
      (Event.isUnlinkOf "temp_universal_0.sql") = 0 ∧
    (runQuery ["q.sql"] outputWriteFailsEnv).events.getLast? = some (.exit 1) ∧
    (runQuery ["q.sql"] outputWriteFailsEnv).exitCode = 1 ∧
    (runQuery ["q.sql"] softFailEnv).events.countP
      (Event.isUnlinkOf "temp_universal_0.sql") = 1 := by
  decide

/-- C16. For every view name, option set and query text, create-view builds exactly:
`CREATE OR REPLACE VIEW` when `--replace` is set and `CREATE VIEW` otherwise, a space, the
name `project.dataset.view_name` between backticks (dataset `mcp` and project
`airy-runway-456110-g5` unless given), then `OPTIONS(description="...")` on a new line
exactly when the description is not empty, then `AS` on a line of its own and the query
text trimmed of white space at both ends.  The arguments of an option set parse to that
set, and the statement is what the run writes to the temporary file. -/
theorem createView_statement (env : Env) (viewName queryFile content : String)
    (dataset project description : Option String) (replace dryRun : Bool)
    (args : List String)
    (hargs : args = viewName :: queryFile ::
      viewOptionArgs dataset project description replace dryRun)
    (hhelp : "--help" ∉ args ∧ "-h" ∉ args)
    (hnames : viewName ≠ "" ∧ queryFile ≠ "")
    (hfile : env.existsSync (resolvePath env queryFile) = true)
    (hread : env.readFileSync (resolvePath env queryFile) = .ok content) :
    let options : ViewOptions :=
      { dataset := some (dataset.getD "mcp"),
        project := some (project.getD "airy-runway-456110-g5"),
        description := some (description.getD ""), replace := replace, dryRun := dryRun }
    let statement :=
      (if replace then "CREATE OR REPLACE VIEW" else "CREATE VIEW") ++ " `" ++
        project.getD "airy-runway-456110-g5" ++ "." ++ dataset.getD "mcp" ++ "." ++ viewName ++
        "`" ++
        (if description.getD "" ≠ "" then
          "\nOPTIONS(description=\"" ++ description.getD "" ++ "\")" else "") ++
        "\nAS\n" ++ trim content
    parseViewArgs args = .parsed viewName queryFile options ∧
    viewStatementOf options viewName (trim content) = statement ∧
    (env.writeFileSync (tempViewName env) statement = .ok () →
      Event.writeFile (tempViewName env) statement ∈ (createView args env).events) := by
  intro options statement
  have hparse : parseViewArgs args = .parsed viewName queryFile options := by
    have h1 : args.contains "--help" = false := by
      simpa using hhelp.1
    have h2 : args.contains "-h" = false := by
      simpa using hhelp.2
    subst hargs
    simp only [parseViewArgs, h1, h2, Bool.or_self, Bool.false_eq_true, if_false]
    simp [hnames.1, hnames.2, parseViewOptions_args, options]
  have hstmt : viewStatementOf options viewName (trim content) = statement := by
    have e1 : "CREATE OR REPLACE VIEW `" = "CREATE OR REPLACE VIEW" ++ " `" := by decide
    have e2 : "CREATE VIEW `" = "CREATE VIEW" ++ " `" := by decide
    cases replace <;> by_cases hd : description.getD "" = "" <;>
      simp only [viewStatementOf, fullViewNameOf, templateValue, options, statement, hd,
        Option.getD_some, bne_self_eq_false, Bool.false_eq_true, if_false, if_true, ne_eq,
        not_true_eq_false, not_false_eq_true, e1, e2, String.append_assoc, String.append_empty,
        bne_iff_ne, reduceCtorEq]
  refine ⟨hparse, hstmt, ?_⟩
  intro hwrite
  rw [← hstmt] at hwrite ⊢
  obtain ⟨post, hpost, -⟩ := writeAndCreate_events env options
    (fullViewNameOf options viewName) _
    [Event.log (.viewBanner queryFile (fullViewNameOf options viewName)
      (match options.description with
        | some d => if d != "" then d else "No description"
        | none => "No description"))] hwrite
  simp only [createView, hparse, hfile, hread, Bool.not_true, Bool.false_eq_true, if_false]
  rw [hpost]
  simp

/-- C16 at a concrete run: `--replace` with a description. -/
theorem createView_statement_witness :
    viewStatementOf
      { dataset := some "mcp", project := some "airy-runway-456110-g5",
        description := some "Daily totals", replace := true, dryRun := false }
      "totals" (trim "  SELECT 1\n") =
      "CREATE OR REPLACE VIEW `airy-runway-456110-g5.mcp.totals`\nOPTIONS(description=\"Daily totals\")\nAS\nSELECT 1" :=
  ((createView_statement viewEnv "totals" "q.sql" "  SELECT 1\n" none none
    (some "Daily totals") true false _ rfl (by decide) (by decide) (by decide) rfl).2.1).trans
    (by decide)

/-- C17, as stated, fails: the number `10^21` prints as `1e+21`, `formatNumber` leaves that
text as it is, and in `1e+21 bytes processed` the pattern matches `21`, so the round trip
yields 21. -/
theorem formatNumber_roundtrip_breaks_at_exponent_form :
    formatNumber (.int (10 ^ 21)) = "1e+21" ∧
    (regexMatch bytesGroup bytesRest
        (formatNumber (.int (10 ^ 21)) ++ " bytes processed").toList).map
      (fun m => parseInt (String.mk (m.filter fun c => c != ','))) = some (.int 21) := by
  decide

/-- C17, amended. Round trip between the display formatter and the fallback parser of
safe-query: for every integer `0 ≤ n ≤ 2^53`, the pattern
`(\d+(?:,\d{3})*)\s+bytes\s+processed` matches the text `formatNumber(n)` followed by
` bytes processed`, its group is the whole formatted number, and removing the commas and
parsing the result gives `n`; so the estimator's text fallback reads `n` from that text. -/
theorem formatNumber_roundtrip (n : Nat) (hle : n ≤ 2 ^ 53) :
    regexMatch bytesGroup bytesRest (formatNumber (.int n) ++ " bytes processed").toList =
      some (formatNumber (.int n)).toList ∧
    (regexMatch bytesGroup bytesRest (formatNumber (.int n) ++ " bytes processed").toList).map
      (fun m => parseInt (String.mk (m.filter fun c => c != ','))) = some (.int n) ∧
    ∀ env : Env, env.jsonParse (formatNumber (.int n) ++ " bytes processed") = none →
      parseDryRun env (formatNumber (.int n) ++ " bytes processed") = some (.int n) := by
  obtain ⟨hv, hne, hall⟩ := natToDecimal_spec n
  have hstr := toStr_nat n hle
  have hfmt : (formatNumber (.int n)).toList = insertCommas none (natToDecimal n) := by
    simp [formatNumber, hstr]
  obtain ⟨hfilter, hgroup⟩ := insertCommas_digits (natToDecimal n) hne hall
  have htext : (formatNumber (.int n) ++ " bytes processed").toList =
      insertCommas none (natToDecimal n) ++ " bytes processed".toList ++ [] := by
    simp [String.toList, String.data_append, ← hfmt]
  have hmatch : regexMatch bytesGroup bytesRest
      (formatNumber (.int n) ++ " bytes processed").toList =
      some (formatNumber (.int n)).toList := by
    rw [htext, hfmt]
    exact regexMatch_at_start _ _ _ hgroup bytesRest_suffix
  have hparse : parseInt (String.mk ((formatNumber (.int n)).toList.filter
      fun c => c != ',')) = .int n := by
    rw [hfmt, hfilter, parseInt_digits _ hne hall, hv, JSNum.ofNat_of_le n hle]
  refine ⟨hmatch, ?_, ?_⟩
  · rw [hmatch]
    simp only [Option.map_some', hparse]
  · intro env hjson
    rw [parseDryRun_of_match env _ _ (Or.inl hjson) hmatch, hfmt, hfilter, hv,
      JSNum.ofNat_of_le n hle]

/-- C17 amended, at 1234567. -/
theorem formatNumber_roundtrip_witness :
    regexMatch bytesGroup bytesRest "1,234,567 bytes processed".toList =
      some "1,234,567".toList :=
  (formatNumber_roundtrip 1234567 (by norm_num)).1

/-- C18. For every integer `0 ≤ bytes < 2^53`, `formatBytes` selects the unit by threshold:
the result is `<bytes> bytes` exactly when `bytes < 1048576`, ends in `MB` exactly when
`1048576 ≤ bytes < 1073741824`, in `GB` exactly when `1073741824 ≤ bytes < 1099511627776`
and in `TB` exactly when `bytes ≥ 1099511627776`; in the scaled cases the number before the
unit is `bytes` divided by the unit size and rounded to two decimal places (the two-place
notation of the integer `n` nearest to one hundred times the quotient), and `n ≥ 100`, so
the number shown is at least `1.00`. -/
theorem formatBytes_units (bytes : Nat) (h : bytes < 2 ^ 53) :
    (formatBytes (.int bytes) = (JSNum.int bytes).toStr ++ " bytes" ↔ bytes < 1048576) ∧
    (['M', 'B'] <:+ (formatBytes (.int bytes)).toList ↔
      1048576 ≤ bytes ∧ bytes < 1073741824) ∧
    (['G', 'B'] <:+ (formatBytes (.int bytes)).toList ↔
      1073741824 ≤ bytes ∧ bytes < 1099511627776) ∧
    (['T', 'B'] <:+ (formatBytes (.int bytes)).toList ↔ 1099511627776 ≤ bytes) ∧
    (1048576 ≤ bytes → ∃ (n unit : Nat) (name : String),
      (unit = 1048576 ∧ name = "MB" ∨ unit = 1073741824 ∧ name = "GB" ∨
        unit = 1099511627776 ∧ name = "TB") ∧
      100 ≤ n ∧ (n : ℚ) - 1 / 2 ≤ (bytes : ℚ) / unit * 100 ∧
      (bytes : ℚ) / unit * 100 < n + 1 / 2 ∧
      formatBytes (.int bytes) = twoPlaces n ++ name) := by
  have hes : ∀ X : String, ['e', 's'] <:+ (X ++ " bytes").toList := by
    intro X
    have : X ++ " bytes" = (X ++ " byt") ++ String.mk ['e', 's'] := by
      rw [String.append_assoc]
      rfl
    rw [this]
    exact toList_append_unit _ 'e' 's'
  rcases formatBytes_cases bytes h with ⟨h1, hs, hsuf⟩ | ⟨h1, h2, hsuf, n, hn, hl, hu, hs⟩ |
    ⟨h1, h2, hsuf, n, hn, hl, hu, hs⟩ | ⟨h1, hsuf, n, hn, hl, hu, hs⟩
  · refine ⟨⟨fun _ => h1, fun _ => hs⟩, ?_, ?_, ?_, fun hge => absurd hge (by omega)⟩
    · constructor
      · intro hx
        exact absurd (suffix_two_unique _ _ _ _ _ hx hsuf).1 (by decide)
      · intro hx; omega
    · constructor
      · intro hx
        exact absurd (suffix_two_unique _ _ _ _ _ hx hsuf).1 (by decide)
      · intro hx; omega
    · constructor
      · intro hx
        exact absurd (suffix_two_unique _ _ _ _ _ hx hsuf).1 (by decide)
      · intro hx; omega
  · refine ⟨?_, ⟨fun _ => ⟨h1, h2⟩, fun _ => hsuf⟩, ?_, ?_,
      fun _ => ⟨n, 1048576, "MB", Or.inl ⟨rfl, rfl⟩, hn, by exact_mod_cast hl,
        by exact_mod_cast hu, hs⟩⟩
    · constructor
      · intro hx
        have := hes (JSNum.int bytes).toStr
        rw [← hx] at this
        exact absurd (suffix_two_unique _ _ _ _ _ this hsuf).1 (by decide)
      · intro hx; omega
    · constructor
      · intro hx
        exact absurd (suffix_two_unique _ _ _ _ _ hx hsuf).1 (by decide)
      · intro hx; omega
    · constructor
      · intro hx
        exact absurd (suffix_two_unique _ _ _ _ _ hx hsuf).1 (by decide)
      · intro hx; omega
  · refine ⟨?_, ?_, ⟨fun _ => ⟨h1, h2⟩, fun _ => hsuf⟩, ?_,
      fun _ => ⟨n, 1073741824, "GB", Or.inr (Or.inl ⟨rfl, rfl⟩), hn, by exact_mod_cast hl,
        by exact_mod_cast hu, hs⟩⟩
    · constructor
      · intro hx
        have := hes (JSNum.int bytes).toStr
        rw [← hx] at this
        exact absurd (suffix_two_unique _ _ _ _ _ this hsuf).1 (by decide)
      · intro hx; omega
    · constructor
      · intro hx
        exact absurd (suffix_two_unique _ _ _ _ _ hx hsuf).1 (by decide)
      · intro hx; omega
    · constructor
      · intro hx
        exact absurd (suffix_two_unique _ _ _ _ _ hx hsuf).1 (by decide)
      · intro hx; omega
  · refine ⟨?_, ?_, ?_, ⟨fun _ => h1, fun _ => hsuf⟩,
      fun _ => ⟨n, 1099511627776, "TB", Or.inr (Or.inr ⟨rfl, rfl⟩), hn, by exact_mod_cast hl,
        by exact_mod_cast hu, hs⟩⟩
    · constructor
      · intro hx
        have := hes (JSNum.int bytes).toStr
        rw [← hx] at this
        exact absurd (suffix_two_unique _ _ _ _ _ this hsuf).1 (by decide)
      · intro hx; omega
    · constructor
      · intro hx
        exact absurd (suffix_two_unique _ _ _ _ _ hx hsuf).1 (by decide)
      · intro hx; omega
    · constructor
      · intro hx
        exact absurd (suffix_two_unique _ _ _ _ _ hx hsuf).1 (by decide)
      · intro hx; omega

/-- C18 at 117.74 MB. -/
theorem formatBytes_units_witness :
    ['M', 'B'] <:+ (formatBytes (.int 123456789)).toList ∧
    formatBytes (.int 123456789) = "117.74MB" :=
  ⟨((formatBytes_units 123456789 (by norm_num)).2.1).2 ⟨by norm_num, by norm_num⟩, by decide⟩

end BigQueryToolkit
